import Mathlib

/-!
Verification of the galette fuse-encoding engine: a shallow embedding of
`src/gal.rs` (fuse state, term compiler, pin-to-column tables) and
`src/gal_builder.rs` (build orchestration, mode inference), with theorems
checking the natural-language specification against the code.

Fallible Rust code is modelled with `Except`; Rust panics (assertion
failures, out-of-bounds indexing) are modelled by an outer `Option`, with
`none` standing for a panic.  Functions taking `&mut self` are modelled by
state passing: they return the updated `GAL` together with the
success/diagnostic outcome, so that partial mutation before an early
error return is preserved, exactly as in the Rust original.
-/

set_option maxRecDepth 10000

namespace Galette

/-- The four device variants supported (`chips.rs::Chip`). -/
inductive Chip
  | GAL16V8
  | GAL20V8
  | GAL22V10
  | GAL20RA10
deriving DecidableEq

/-- The operating modes of the GAL16V8/GAL20V8 (`gal.rs::Mode`). -/
inductive Mode
  | Simple
  | Complex
  | Registered
deriving DecidableEq

/-- Control-equation kinds used in diagnostics (`errors.rs::OutputSuffix`,
modelled from its use sites in `gal_builder.rs`). -/
inductive OutputSuffix
  | CLK
  | ARST
  | APRST
  | E
deriving DecidableEq

/-- Diagnostic kinds (`errors.rs::ErrorCode`, modelled from the spec's
error list and the construction sites in `gal.rs`/`gal_builder.rs`). -/
inductive ErrorCode
  | BadAnalysis
  | BadPower
  | ReservedRegisteredInput (pin : Nat) (name : String)
  | NotAnComplexModeInput (pin : Nat)
  | ReservedInputGAL20RA10 (pin : Nat) (name : String)
  | MoreThanOneProduct
  | TooManyProducts (max : Nat) (seen : Nat)
  | DisallowedControl (suffix : OutputSuffix)
  | UndefinedOutput (suffix : OutputSuffix)
  | InvalidControl (suffix : OutputSuffix)
  | NoCLK
  | TristateReg
  | UnmatchedTristate
deriving DecidableEq

/-- Modelled from the spec: a line-tagged diagnostic (`errors.rs::Error`);
"every diagnostic is tagged with the originating Term's source line". -/
structure Error where
  line : Nat
  code : ErrorCode
deriving DecidableEq

/-- A potentially negated input pin (`gal.rs::Pin`). -/
structure Pin where
  pin : Nat
  neg : Bool
deriving DecidableEq

/-- An OR of AND-groups of pins, tagged with a source line (`gal.rs::Term`). -/
structure Term where
  line_num : Nat
  pins : List (List Pin)
deriving DecidableEq

/-- A row-reservation cursor (`chips.rs::Bounds`, re-exported by `gal.rs`;
fields from the spec's data model and the use sites in `gal_builder.rs`). -/
structure Bounds where
  start_row : Nat
  max_row : Nat
  row_offset : Nat
deriving DecidableEq

/-- The fuse state of the GAL being programmed (`gal.rs::GAL`). -/
structure GAL where
  chip : Chip
  fuses : List Bool
  xor : List Bool
  sig : List Bool
  ac1 : List Bool
  pt : List Bool
  syn : Bool
  ac0 : Bool
deriving DecidableEq

/-- Output drive kinds (`blueprint.rs::PinMode`, modelled from the spec:
output-kind of an OLMC is Combinatorial, Tristate or Registered). -/
inductive PinMode
  | Combinatorial
  | Tristate
  | Registered
deriving DecidableEq

/-- Active polarity (`blueprint.rs::Active`, modelled from the spec). -/
inductive Active
  | High
  | Low
deriving DecidableEq

/-- Modelled from the spec: one OLMC configuration (`blueprint.rs::OLMC`,
not under src/): optional (output-kind, Term) pair, active polarity,
optional tristate-control Term, optional clock/async-reset/async-preset
Terms, and a feedback-used flag. -/
structure OLMC where
  output : Option (PinMode × Term)
  active : Active
  tri_con : Option Term
  clock : Option Term
  arst : Option Term
  aprst : Option Term
  feedback : Bool
deriving DecidableEq

/-- Modelled from the spec: the logical design description fed to the
builder (`blueprint.rs::Blueprint`, not under src/): device variant,
signature bytes, ordered OLMC configurations, and the two optional
chip-wide AR/SP terms of the GAL22V10. -/
structure Blueprint where
  chip : Chip
  sig : List Nat
  olmcs : List OLMC
  ar : Option Term
  sp : Option Term
deriving DecidableEq

/-- Modelled from the spec: device capability, OLMC count
(`chips.rs::Chip::num_olmcs`, not under src/). -/
def Chip.num_olmcs : Chip → Nat
  | .GAL16V8 => 8
  | .GAL20V8 => 8
  | .GAL22V10 => 10
  | .GAL20RA10 => 10

/-- Modelled from the spec: device capability, fuse-array column count
(`chips.rs::Chip::num_cols`, not under src/); consistent with the
pin-to-column tables of `gal.rs` (two columns per usable input). -/
def Chip.num_cols : Chip → Nat
  | .GAL16V8 => 32
  | .GAL20V8 => 40
  | .GAL22V10 => 44
  | .GAL20RA10 => 40

/-- Modelled from the spec: device capability, fuse-array row count
(`chips.rs`, not under src/); the GAL22V10 additionally has the chip-wide
AR row 0 and SP row 131 used by `set_arsp_eqns`. -/
def Chip.num_rows : Chip → Nat
  | .GAL16V8 => 64
  | .GAL20V8 => 64
  | .GAL22V10 => 132
  | .GAL20RA10 => 80

/-- Modelled from the spec: device capability, main logic array size
(`chips.rs::Chip::logic_size`, not under src/). -/
def Chip.logic_size (c : Chip) : Nat := c.num_rows * c.num_cols

/-- Modelled from the spec: physical pin count of each package
(`chips.rs`, not under src/); equals the length of the pin-to-column
tables in `gal.rs`. -/
def Chip.num_pins : Chip → Nat
  | .GAL16V8 => 20
  | .GAL20V8 => 24
  | .GAL22V10 => 24
  | .GAL20RA10 => 24

/-- Modelled from the spec: device capability, pin-to-OLMC lookup
(`chips.rs::Chip::pin_to_olmc`, not under src/): the contiguous range of
output pins maps to OLMC indices 0.., other pins map to nothing. -/
def Chip.pin_to_olmc (c : Chip) (pin : Nat) : Option Nat :=
  match c with
  | .GAL16V8 => if 12 ≤ pin ∧ pin ≤ 19 then some (pin - 12) else none
  | .GAL20V8 => if 15 ≤ pin ∧ pin ≤ 22 then some (pin - 15) else none
  | .GAL22V10 => if 14 ≤ pin ∧ pin ≤ 23 then some (pin - 14) else none
  | .GAL20RA10 => if 14 ≤ pin ∧ pin ≤ 23 then some (pin - 14) else none

/-- Modelled from the spec: device capability, per-OLMC row reservation
(`chips.rs::Chip::get_bounds`, not under src/).  The GALxV8 and GAL20RA10
reserve 8 rows per OLMC; the GAL22V10 blocks have 9..17 rows (one enable
row plus 8..16 product rows), packed between the AR row 0 and SP row 131. -/
def Chip.get_bounds (c : Chip) (i : Nat) : Bounds :=
  match c with
  | .GAL16V8 => { start_row := 8 * i, max_row := 8, row_offset := 0 }
  | .GAL20V8 => { start_row := 8 * i, max_row := 8, row_offset := 0 }
  | .GAL22V10 =>
    { start_row := [1, 10, 21, 34, 49, 66, 83, 98, 111, 122].getD i 0,
      max_row := [9, 11, 13, 15, 17, 17, 15, 13, 11, 9].getD i 0,
      row_offset := 0 }
  | .GAL20RA10 => { start_row := 8 * i, max_row := 8, row_offset := 0 }

/-- `gal.rs::BAD`. -/
def BAD : Except ErrorCode Nat := .error .BadAnalysis

/-- `gal.rs::PWR`. -/
def PWR : Except ErrorCode Nat := .error .BadPower

/-- `gal.rs::REG_P1`. -/
def REG_P1 : Except ErrorCode Nat := .error (.ReservedRegisteredInput 1 "Clock")

/-- `gal.rs::REG_P11`. -/
def REG_P11 : Except ErrorCode Nat := .error (.ReservedRegisteredInput 11 "/OE")

/-- `gal.rs::REG_P13`. -/
def REG_P13 : Except ErrorCode Nat := .error (.ReservedRegisteredInput 13 "/OE")

/-- `gal.rs::CPLX_P12`. -/
def CPLX_P12 : Except ErrorCode Nat := .error (.NotAnComplexModeInput 12)

/-- `gal.rs::CPLX_P15`. -/
def CPLX_P15 : Except ErrorCode Nat := .error (.NotAnComplexModeInput 15)

/-- `gal.rs::CPLX_P19`. -/
def CPLX_P19 : Except ErrorCode Nat := .error (.NotAnComplexModeInput 19)

/-- `gal.rs::CPLX_P22`. -/
def CPLX_P22 : Except ErrorCode Nat := .error (.NotAnComplexModeInput 22)

/-- `gal.rs::P1_20RA10`. -/
def P1_20RA10 : Except ErrorCode Nat := .error (.ReservedInputGAL20RA10 1 "/PL")

/-- `gal.rs::P13_20RA10`. -/
def P13_20RA10 : Except ErrorCode Nat := .error (.ReservedInputGAL20RA10 13 "/OE")

/-- `gal.rs::PIN_TO_COL_16_SIMPLE`. -/
def PIN_TO_COL_16_SIMPLE : List (Except ErrorCode Nat) :=
  [.ok 2, .ok 0, .ok 4, .ok 8, .ok 12, .ok 16, .ok 20, .ok 24, .ok 28, PWR,
   .ok 30, .ok 26, .ok 22, .ok 18, BAD, BAD, .ok 14, .ok 10, .ok 6, PWR]

/-- `gal.rs::PIN_TO_COL_16_COMPLEX`. -/
def PIN_TO_COL_16_COMPLEX : List (Except ErrorCode Nat) :=
  [.ok 2, .ok 0, .ok 4, .ok 8, .ok 12, .ok 16, .ok 20, .ok 24, .ok 28, PWR,
   .ok 30, CPLX_P12, .ok 26, .ok 22, .ok 18, .ok 14, .ok 10, .ok 6, CPLX_P19, PWR]

/-- `gal.rs::PIN_TO_COL_16_REGISTERED`. -/
def PIN_TO_COL_16_REGISTERED : List (Except ErrorCode Nat) :=
  [REG_P1, .ok 0, .ok 4, .ok 8, .ok 12, .ok 16, .ok 20, .ok 24, .ok 28, PWR,
   REG_P11, .ok 30, .ok 26, .ok 22, .ok 18, .ok 14, .ok 10, .ok 6, .ok 2, PWR]

/-- `gal.rs::PIN_TO_COL_20_SIMPLE`. -/
def PIN_TO_COL_20_SIMPLE : List (Except ErrorCode Nat) :=
  [.ok 2, .ok 0, .ok 4, .ok 8, .ok 12, .ok 16, .ok 20, .ok 24, .ok 28, .ok 32, .ok 36, PWR,
   .ok 38, .ok 34, .ok 30, .ok 26, .ok 22, BAD, BAD, .ok 18, .ok 14, .ok 10, .ok 6, PWR]

/-- `gal.rs::PIN_TO_COL_20_COMPLEX`. -/
def PIN_TO_COL_20_COMPLEX : List (Except ErrorCode Nat) :=
  [.ok 2, .ok 0, .ok 4, .ok 8, .ok 12, .ok 16, .ok 20, .ok 24, .ok 28, .ok 32, .ok 36, PWR,
   .ok 38, .ok 34, CPLX_P15, .ok 30, .ok 26, .ok 22, .ok 18, .ok 14, .ok 10, CPLX_P22, .ok 6, PWR]

/-- `gal.rs::PIN_TO_COL_20_REGISTERED`. -/
def PIN_TO_COL_20_REGISTERED : List (Except ErrorCode Nat) :=
  [REG_P1, .ok 0, .ok 4, .ok 8, .ok 12, .ok 16, .ok 20, .ok 24, .ok 28, .ok 32, .ok 36, PWR,
   REG_P13, .ok 38, .ok 34, .ok 30, .ok 26, .ok 22, .ok 18, .ok 14, .ok 10, .ok 6, .ok 2, PWR]

/-- `gal.rs::PIN_TO_COL_22V10`. -/
def PIN_TO_COL_22V10 : List (Except ErrorCode Nat) :=
  [.ok 0, .ok 4, .ok 8, .ok 12, .ok 16, .ok 20, .ok 24, .ok 28, .ok 32, .ok 36, .ok 40, PWR,
   .ok 42, .ok 38, .ok 34, .ok 30, .ok 26, .ok 22, .ok 18, .ok 14, .ok 10, .ok 6, .ok 2, PWR]

/-- `gal.rs::PIN_TO_COL_20RA10`. -/
def PIN_TO_COL_20RA10 : List (Except ErrorCode Nat) :=
  [P1_20RA10, .ok 0, .ok 4, .ok 8, .ok 12, .ok 16, .ok 20, .ok 24, .ok 28, .ok 32, .ok 36, PWR,
   P13_20RA10, .ok 38, .ok 34, .ok 30, .ok 26, .ok 22, .ok 18, .ok 14, .ok 10, .ok 6, .ok 2, PWR]

/-- `gal.rs::GAL::new`: the freshly created fuse state. -/
def GAL.new (chip : Chip) : GAL :=
  { chip := chip
    fuses := List.replicate chip.logic_size true
    xor := List.replicate chip.num_olmcs false
    sig := List.replicate 64 false
    ac1 := List.replicate chip.num_olmcs false
    pt := List.replicate 64 false
    syn := false
    ac0 := false }

/-- `gal.rs::GAL::set_mode`: store a mode into the syn/ac0 fuses.  The
Rust original asserts the chip is a GALxV8; assertion failure is `none`. -/
def GAL.set_mode (g : GAL) (mode : Mode) : Option GAL :=
  if g.chip = Chip.GAL16V8 ∨ g.chip = Chip.GAL20V8 then
    some (match mode with
      | .Simple => { g with syn := true, ac0 := false }
      | .Complex => { g with syn := true, ac0 := true }
      | .Registered => { g with syn := false, ac0 := true })
  else none

/-- `gal.rs::GAL::get_mode`: read the mode back from the syn/ac0 fuses;
the assertion and the `panic!` on a bad bit pattern are `none`. -/
def GAL.get_mode (g : GAL) : Option Mode :=
  if g.chip = Chip.GAL16V8 ∨ g.chip = Chip.GAL20V8 then
    match g.syn, g.ac0 with
    | true, false => some .Simple
    | true, true => some .Complex
    | false, true => some .Registered
    | false, false => none
  else none

/-- `gal.rs::GAL::needs_flip`: the GAL22V10 registered/active-high
feedback-inversion special case. -/
def GAL.needs_flip (g : GAL) (pin_num : Nat) : Bool :=
  if g.chip ≠ Chip.GAL22V10 then false
  else
    match g.chip.pin_to_olmc pin_num with
    | some i =>
      (! g.ac1.getD (g.chip.num_olmcs - 1 - i) false) &&
        g.xor.getD (g.chip.num_olmcs - 1 - i) false
    | none => false

/-- The (mode-dependent) pin-to-column table selected by
`gal.rs::GAL::pin_to_column`; `none` when `get_mode` panics. -/
def GAL.pin_table (g : GAL) : Option (List (Except ErrorCode Nat)) :=
  match g.chip with
  | .GAL16V8 =>
    (g.get_mode).map fun m =>
      match m with
      | .Simple => PIN_TO_COL_16_SIMPLE
      | .Complex => PIN_TO_COL_16_COMPLEX
      | .Registered => PIN_TO_COL_16_REGISTERED
  | .GAL20V8 =>
    (g.get_mode).map fun m =>
      match m with
      | .Simple => PIN_TO_COL_20_SIMPLE
      | .Complex => PIN_TO_COL_20_COMPLEX
      | .Registered => PIN_TO_COL_20_REGISTERED
  | .GAL22V10 => some PIN_TO_COL_22V10
  | .GAL20RA10 => some PIN_TO_COL_20RA10

/-- `gal.rs::GAL::pin_to_column`: map a 1-based pin number to a fuse
column; the out-of-range table index (pin 0 or pin beyond the package)
is a Rust panic, hence `none`. -/
def GAL.pin_to_column (g : GAL) (pin_num : Nat) : Option (Except ErrorCode Nat) :=
  match g.pin_table with
  | none => none
  | some tbl => if pin_num = 0 then none else tbl[pin_num - 1]?

/-- `gal.rs::GAL::set_and`: blow the fuse selecting one polarity of one
input in one row (fuse index `row * row_len + column + neg_off` with
`row_len` the column count and `neg_off` 1 for the negated polarity).
An out-of-bounds fuse write is a Rust panic (`none`). -/
def GAL.set_and (g : GAL) (row : Nat) (pin_num : Nat) (negation : Bool) :
    Option (GAL × Except ErrorCode Unit) :=
  match g.pin_to_column pin_num with
  | none => none
  | some (.error e) => some (g, .error e)
  | some (.ok column) =>
    if row * g.chip.num_cols + column + negation.toNat < g.fuses.length then
      some ({ g with
        fuses := g.fuses.set (row * g.chip.num_cols + column + negation.toNat) false },
        .ok ())
    else none

/-- The inner loop of `gal.rs::GAL::add_term`: enter the pins of one
AND-group into one row (with the GAL22V10 `needs_flip` polarity
correction), propagating the first line-tagged diagnostic. -/
def GAL.add_row (g : GAL) (line : Nat) (row : Nat) :
    List Pin → Option (GAL × Except Error Unit)
  | [] => some (g, .ok ())
  | input :: rest =>
    match g.set_and row input.pin (Bool.xor input.neg (g.needs_flip input.pin)) with
    | none => none
    | some (g1, .error e) => some (g1, .error ⟨line, e⟩)
    | some (g1, .ok _) => g1.add_row line row rest

/-- The outer loop of `gal.rs::GAL::add_term`: one AND-group per row,
failing with the overflow diagnostic when the cursor runs out of rows.
On success it returns the advanced cursor (for the final row-clearing). -/
def GAL.add_term_loop (g : GAL) (line : Nat) (total : Nat) (single_row : Bool) (b : Bounds) :
    List (List Pin) → Option (GAL × Except Error Bounds)
  | [] => some (g, .ok b)
  | row :: rest =>
    if b.row_offset = b.max_row then
      some (g, .error ⟨line,
        if single_row then ErrorCode.MoreThanOneProduct
        else ErrorCode.TooManyProducts (b.max_row - 1) total⟩)
    else
      match g.add_row line (b.start_row + b.row_offset) row with
      | none => none
      | some (g1, .error e) => some (g1, .error e)
      | some (g1, .ok _) =>
        g1.add_term_loop line total single_row { b with row_offset := b.row_offset + 1 } rest

/-- The loop of `gal.rs::GAL::clear_rows`: zero fuse indices
`s`, `s+1`, ..., `s+n-1`. -/
def zero_fuses (l : List Bool) (s : Nat) : Nat → List Bool
  | 0 => l
  | n + 1 => (zero_fuses l s n).set (s + n) false

/-- `gal.rs::GAL::clear_rows`: zero the remaining reserved rows in full,
i.e. the fuse range from `(start_row + row_offset) * num_cols` up to
`(start_row + max_row) * num_cols`; an out-of-bounds write (the loop
range escaping the array) is a panic. -/
def GAL.clear_rows (g : GAL) (b : Bounds) : Option GAL :=
  if (b.start_row + b.max_row) * g.chip.num_cols ≤
      (b.start_row + b.row_offset) * g.chip.num_cols then some g
  else if (b.start_row + b.max_row) * g.chip.num_cols ≤ g.fuses.length then
    some { g with
      fuses := zero_fuses g.fuses ((b.start_row + b.row_offset) * g.chip.num_cols)
        ((b.start_row + b.max_row) * g.chip.num_cols -
          (b.start_row + b.row_offset) * g.chip.num_cols) }
  else none

/-- `gal.rs::GAL::add_term`: compile one Term into its reserved rows and
zero the unused remainder of the reservation (`single_row` is
`max_row == row_offset + 1`, read off the incoming cursor). -/
def GAL.add_term (g : GAL) (t : Term) (b : Bounds) : Option (GAL × Except Error Unit) :=
  match g.add_term_loop t.line_num t.pins.length (b.max_row == b.row_offset + 1) b t.pins with
  | none => none
  | some (g1, .error e) => some (g1, .error e)
  | some (g1, .ok b1) =>
    match g1.clear_rows b1 with
    | none => none
    | some g2 => some (g2, .ok ())

/-- `gal.rs::false_term`: the constant-false Term (OR of nothing). -/
def false_term (line_num : Nat) : Term := { line_num := line_num, pins := [] }

/-- `gal.rs::true_term`: the constant-true Term (one empty AND-group). -/
def true_term (line_num : Nat) : Term := { line_num := line_num, pins := [[]] }

/-- `gal.rs::GAL::add_term_opt`: an absent term compiles as the
constant-false term. -/
def GAL.add_term_opt (g : GAL) (t : Option Term) (b : Bounds) :
    Option (GAL × Except Error Unit) :=
  match t with
  | some t => g.add_term t b
  | none => g.add_term (false_term 0) b

/-- The bit written for byte `c` at position `j` by `gal_builder.rs::set_sig`:
`(c << j) & 0x80 != 0`, bytes expanding high-bit-first. -/
def sig_bit (c : Nat) (j : Nat) : Bool := ((c <<< j) &&& 0x80) != 0

/-- The inner loop of `gal_builder.rs::set_sig`: write the 8 bits of byte
`i` (bits `j = 0, ..., n-1`, with `n = 8` at the call site). -/
def set_sig_bits (g : GAL) (i : Nat) (c : Nat) : Nat → GAL
  | 0 => g
  | j + 1 =>
    let g1 := set_sig_bits g i c j
    { g1 with sig := g1.sig.set (i * 8 + j) (sig_bit c j) }

/-- The outer loop of `gal_builder.rs::set_sig`: expand bytes
`0, ..., n-1` of the signature (with `n = min len 8` at the call site). -/
def set_sig_from (g : GAL) (bp : Blueprint) : Nat → GAL
  | 0 => g
  | i + 1 => set_sig_bits (set_sig_from g bp i) i (bp.sig.getD i 0) 8

/-- `gal_builder.rs::set_sig`: expand up to 8 signature bytes into the
64 signature bits, high-bit-first. -/
def set_sig (g : GAL) (bp : Blueprint) : GAL :=
  set_sig_from g bp (min bp.sig.length 8)

/-- The per-OLMC tristate condition of `gal_builder.rs::set_tristate`. -/
def is_tristate (olmc : OLMC) (com_is_tri : Bool) : Bool :=
  match olmc.output with
  | none => olmc.feedback
  | some (.Tristate, _) => true
  | some (.Combinatorial, _) => com_is_tri
  | some (.Registered, _) => false

/-- The loop of `gal_builder.rs::set_tristate` (iteration index `i`). -/
def set_tristate_from (g : GAL) (num_olmcs : Nat) (com_is_tri : Bool) (i : Nat) :
    List OLMC → GAL
  | [] => g
  | olmc :: rest =>
    let g1 :=
      if is_tristate olmc com_is_tri then
        { g with ac1 := g.ac1.set (num_olmcs - 1 - i) true }
      else g
    set_tristate_from g1 num_olmcs com_is_tri (i + 1) rest

/-- `gal_builder.rs::set_tristate`: set the per-OLMC tristate-enable
(ac1) bits. -/
def set_tristate (g : GAL) (bp : Blueprint) (com_is_tri : Bool) : GAL :=
  set_tristate_from g bp.olmcs.length com_is_tri 0 bp.olmcs

/-- The loop of `gal_builder.rs::set_xors` (iteration index `i`). -/
def set_xors_from (g : GAL) (num_olmcs : Nat) (i : Nat) : List OLMC → GAL
  | [] => g
  | olmc :: rest =>
    let g1 :=
      if olmc.output.isSome && (olmc.active == Active.High) then
        { g with xor := g.xor.set (num_olmcs - 1 - i) true }
      else g
    set_xors_from g1 num_olmcs (i + 1) rest

/-- `gal_builder.rs::set_xors`: set the per-OLMC polarity (xor) bits. -/
def set_xors (g : GAL) (bp : Blueprint) : GAL :=
  set_xors_from g bp.olmcs.length 0 bp.olmcs

/-- `gal_builder.rs::set_pts`: set every product-term-enable bit. -/
def set_pts (g : GAL) : GAL :=
  { g with pt := g.pt.map fun _ => true }

/-- `gal_builder.rs::adjust_main_bounds`: skip the per-chip control rows
at the start of an OLMC's reservation before compiling its main
equation; reading the mode of a GALxV8 can panic (`none`). -/
def adjust_main_bounds (g : GAL) (output : Option (PinMode × Term)) (b : Bounds) :
    Option Bounds :=
  match g.chip with
  | .GAL16V8 | .GAL20V8 =>
    let reg_out := match output with | some (.Registered, _) => true | _ => false
    (g.get_mode).map fun m =>
      if m = Mode.Simple ∨ reg_out = true then b else { b with row_offset := 1 }
  | .GAL22V10 => some { b with row_offset := 1 }
  | .GAL20RA10 => some { b with row_offset := 4 }

/-- `gal_builder.rs::check_tristate`: is the main output in the right
mode to take a tristate-enable equation? -/
def check_tristate (chip : Chip) (olmc : OLMC) : Except ErrorCode Unit :=
  match olmc.output with
  | none => .error (.UndefinedOutput .E)
  | some (.Registered, _) =>
    if chip = Chip.GAL16V8 ∨ chip = Chip.GAL20V8 then .error .TristateReg else .ok ()
  | some (.Combinatorial, _) => .error .UnmatchedTristate
  | some (.Tristate, _) => .ok ()

/-- `gal_builder.rs::check_aux`: a control equation needs a Registered
output; the diagnostic is tagged with the control term's line. -/
def check_aux (field : Option Term) (olmc : OLMC) (suffix : OutputSuffix) :
    Except Error Unit :=
  match field with
  | some term =>
    (match olmc.output with
      | none => .error ⟨term.line_num, .UndefinedOutput suffix⟩
      | some (.Registered, _) => .ok ()
      | some _ => .error ⟨term.line_num, .InvalidControl suffix⟩)
  | none => .ok ()

/-- The loop of `gal_builder.rs::set_core_eqns` (iteration index `i`):
compile each OLMC's main equation into its reserved block (bounds
adjusted for control rows), then its tristate-enable equation, if
supplied, into exactly the block's first row. -/
def set_core_eqns_from (g : GAL) (i : Nat) : List OLMC → Option (GAL × Except Error Unit)
  | [] => some (g, .ok ())
  | olmc :: rest =>
    match ((match olmc.output with
      | some (_, term) =>
        (match adjust_main_bounds g olmc.output (g.chip.get_bounds i) with
        | none => none
        | some b => g.add_term term b)
      | none => g.add_term (false_term 0) (g.chip.get_bounds i)) :
        Option (GAL × Except Error Unit)) with
    | none => none
    | some (g1, .error e) => some (g1, .error e)
    | some (g1, .ok _) =>
      match olmc.tri_con with
      | none => set_core_eqns_from g1 (i + 1) rest
      | some term =>
        match check_tristate g1.chip olmc with
        | .error e => some (g1, .error ⟨term.line_num, e⟩)
        | .ok _ =>
          match g1.add_term term { g.chip.get_bounds i with row_offset := 0, max_row := 1 } with
          | none => none
          | some (g2, .error e) => some (g2, .error e)
          | some (g2, .ok _) => set_core_eqns_from g2 (i + 1) rest

/-- `gal_builder.rs::set_core_eqns`. -/
def set_core_eqns (g : GAL) (bp : Blueprint) : Option (GAL × Except Error Unit) :=
  set_core_eqns_from g 0 bp.olmcs

/-- `gal_builder.rs::set_arsp_eqns`: the chip-wide AR and SP equations of
the GAL22V10, at single-row absolute offsets 0 and 131. -/
def set_arsp_eqns (g : GAL) (bp : Blueprint) : Option (GAL × Except Error Unit) :=
  match g.add_term_opt bp.ar { start_row := 0, max_row := 1, row_offset := 0 } with
  | none => none
  | some (g1, .error e) => some (g1, .error e)
  | some (g1, .ok _) =>
    match g1.add_term_opt bp.sp { start_row := 131, max_row := 1, row_offset := 0 } with
    | none => none
    | some (g2, .error e) => some (g2, .error e)
    | some (g2, .ok _) => some (g2, .ok ())

/-- The loop of `gal_builder.rs::set_aux_eqns` (iteration index `i`):
validate the control equations of each OLMC, compile ARST/APRST for
Registered outputs (reporting a missing clock as NoCLK at the output
term's line), and compile the clock term (or its constant-false default)
whenever any output equation exists. -/
def set_aux_eqns_from (g : GAL) (i : Nat) : List OLMC → Option (GAL × Except Error Unit)
  | [] => some (g, .ok ())
  | olmc :: rest =>
    match check_aux olmc.clock olmc .CLK with
    | .error e => some (g, .error e)
    | .ok _ =>
    match check_aux olmc.arst olmc .ARST with
    | .error e => some (g, .error e)
    | .ok _ =>
    match check_aux olmc.aprst olmc .APRST with
    | .error e => some (g, .error e)
    | .ok _ =>
    match ((match olmc.output with
      | some (.Registered, term) =>
        (match g.add_term_opt olmc.arst
            { g.chip.get_bounds i with row_offset := 2, max_row := 3 } with
        | none => none
        | some (g1, .error e) => some (g1, .error e)
        | some (g1, .ok _) =>
          match g1.add_term_opt olmc.aprst
              { g.chip.get_bounds i with row_offset := 3, max_row := 4 } with
          | none => none
          | some (g2, .error e) => some (g2, .error e)
          | some (g2, .ok _) =>
            if olmc.clock.isNone then some (g2, .error ⟨term.line_num, .NoCLK⟩)
            else some (g2, .ok ()))
      | _ => some (g, .ok ())) : Option (GAL × Except Error Unit)) with
    | none => none
    | some (g2, .error e) => some (g2, .error e)
    | some (g2, .ok _) =>
      match olmc.output with
      | some _ =>
        (match g2.add_term_opt olmc.clock
            { g.chip.get_bounds i with row_offset := 1, max_row := 2 } with
        | none => none
        | some (g3, .error e) => some (g3, .error e)
        | some (g3, .ok _) => set_aux_eqns_from g3 (i + 1) rest)
      | none => set_aux_eqns_from g2 (i + 1) rest

/-- `gal_builder.rs::set_aux_eqns`. -/
def set_aux_eqns (g : GAL) (bp : Blueprint) : Option (GAL × Except Error Unit) :=
  set_aux_eqns_from g 0 bp.olmcs

/-- The loop of `gal_builder.rs::check_not_gal20ra10`: reject the first
clock/ARST/APRST equation found, as the GALxV8/GAL22V10 lack those lines. -/
def check_not_gal20ra10_loop : List OLMC → Except Error Unit
  | [] => .ok ()
  | olmc :: rest =>
    match olmc.clock with
    | some term => .error ⟨term.line_num, .DisallowedControl .CLK⟩
    | none =>
    match olmc.arst with
    | some term => .error ⟨term.line_num, .DisallowedControl .ARST⟩
    | none =>
    match olmc.aprst with
    | some term => .error ⟨term.line_num, .DisallowedControl .APRST⟩
    | none => check_not_gal20ra10_loop rest

/-- `gal_builder.rs::check_not_gal20ra10`. -/
def check_not_gal20ra10 (bp : Blueprint) : Except Error Unit :=
  check_not_gal20ra10_loop bp.olmcs

/-- Does this OLMC have a Registered output (first rule of
`gal_builder.rs::analyse_mode`)? -/
def is_registered_output (olmc : OLMC) : Bool :=
  match olmc.output with
  | some (.Registered, _) => true
  | _ => false

/-- Does this OLMC have a Tristate output (second rule of
`gal_builder.rs::analyse_mode`)? -/
def is_tristate_output (olmc : OLMC) : Bool :=
  match olmc.output with
  | some (.Tristate, _) => true
  | _ => false

/-- The third rule of `gal_builder.rs::analyse_mode`: scan the OLMCs with
feedback used (enumeration index `n`); one with no output at index 3 or
4, or one with any output, forces Complex mode. -/
def cannot_use_simple (n : Nat) : List OLMC → Bool
  | [] => false
  | olmc :: rest =>
    if olmc.feedback then
      match olmc.output with
      | none => if n = 3 ∨ n = 4 then true else cannot_use_simple (n + 1) rest
      | some _ => true
    else cannot_use_simple (n + 1) rest

/-- `gal_builder.rs::analyse_mode`: infer the GALxV8 operating mode from
the 8 OLMC configurations; the assertion on the OLMC count is `none`. -/
def analyse_mode (olmcs : List OLMC) : Option Mode :=
  if olmcs.length = 8 then
    some
      (if olmcs.any is_registered_output then .Registered
       else if olmcs.any is_tristate_output then .Complex
       else if cannot_use_simple 0 olmcs then .Complex
       else .Simple)
  else none

/-- `gal_builder.rs::set_mode` (the builder step): infer the mode and
store it into the mode fuses. -/
def set_mode_step (g : GAL) (bp : Blueprint) : Option GAL :=
  match analyse_mode bp.olmcs with
  | none => none
  | some m => g.set_mode m

/-- `gal_builder.rs::build_galxv8`. -/
def build_galxv8 (g : GAL) (bp : Blueprint) : Option (GAL × Except Error Unit) :=
  match check_not_gal20ra10 bp with
  | .error e => some (g, .error e)
  | .ok _ =>
    match set_mode_step (set_sig g bp) bp with
    | none => none
    | some g2 =>
      match g2.get_mode with
      | none => none
      | some m =>
        match set_core_eqns (set_xors (set_tristate g2 bp (m != Mode.Simple)) bp) bp with
        | none => none
        | some (g5, .error e) => some (g5, .error e)
        | some (g5, .ok _) => some (set_pts g5, .ok ())

/-- `gal_builder.rs::build_gal22v10`. -/
def build_gal22v10 (g : GAL) (bp : Blueprint) : Option (GAL × Except Error Unit) :=
  match check_not_gal20ra10 bp with
  | .error e => some (g, .error e)
  | .ok _ =>
    match set_core_eqns (set_xors (set_tristate (set_sig g bp) bp true) bp) bp with
    | none => none
    | some (g4, .error e) => some (g4, .error e)
    | some (g4, .ok _) =>
      match set_arsp_eqns g4 bp with
      | none => none
      | some (g5, .error e) => some (g5, .error e)
      | some (g5, .ok _) => some (g5, .ok ())

/-- `gal_builder.rs::build_gal20ra10`. -/
def build_gal20ra10 (g : GAL) (bp : Blueprint) : Option (GAL × Except Error Unit) :=
  match set_core_eqns (set_xors (set_sig g bp) bp) bp with
  | none => none
  | some (g3, .error e) => some (g3, .error e)
  | some (g3, .ok _) =>
    match set_aux_eqns g3 bp with
    | none => none
    | some (g4, .error e) => some (g4, .error e)
    | some (g4, .ok _) => some (g4, .ok ())

/-- `gal_builder.rs::build`: allocate the fuse state and dispatch to the
family-specific build sequence. -/
def build (bp : Blueprint) : Option (GAL × Except Error Unit) :=
  match bp.chip with
  | .GAL16V8 | .GAL20V8 => build_galxv8 (GAL.new bp.chip) bp
  | .GAL22V10 => build_gal22v10 (GAL.new bp.chip) bp
  | .GAL20RA10 => build_gal20ra10 (GAL.new bp.chip) bp

/-- A pin number that resolves to a column (rather than to a diagnostic
or a panic) under the current chip and mode. -/
def resolves_ok (g : GAL) (p : Nat) : Bool :=
  match g.pin_to_column p with
  | some (.ok _) => true
  | _ => false

/-- A table entry is a column offset that leaves room for its negation
column inside the row. -/
def col_ok (bound : Nat) : Except ErrorCode Nat → Bool
  | .ok c => decide (c + 1 < bound)
  | .error _ => true

/-- The claim's notion of a specifically named outcome: a usable column
offset (leaving room for its negation column), or one of the five named
pin diagnostics — never anything else. -/
def named_result (bound : Nat) : Except ErrorCode Nat → Bool
  | .ok col => decide (col + 1 < bound)
  | .error .BadAnalysis => true
  | .error .BadPower => true
  | .error (.ReservedRegisteredInput _ _) => true
  | .error (.NotAnComplexModeInput _) => true
  | .error (.ReservedInputGAL20RA10 _ _) => true
  | .error _ => false

/-- All non-fuse fields of two fuse states agree. -/
def eq_but_fuses (g1 g : GAL) : Prop :=
  g1.chip = g.chip ∧ g1.xor = g.xor ∧ g1.sig = g.sig ∧ g1.ac1 = g.ac1 ∧
  g1.pt = g.pt ∧ g1.syn = g.syn ∧ g1.ac0 = g.ac0

/-- The mode the claim describes, following its wording: any Registered
output yields Registered regardless of every other configuration; else
any Tristate output yields Complex; else a feedback-used OLMC with no
output at 0-based index 3 or 4, or a feedback-used OLMC with any output,
yields Complex; otherwise Simple. -/
def claim_mode (olmcs : List OLMC) : Mode :=
  if olmcs.any is_registered_output then .Registered
  else if olmcs.any is_tristate_output then .Complex
  else if olmcs.enum.any (fun p =>
      p.2.feedback && ((p.2.output.isNone && (p.1 == 3 || p.1 == 4)) || p.2.output.isSome))
    then .Complex
  else .Simple

/-- Does this OLMC have a Combinatorial output? -/
def is_combinatorial_output (olmc : OLMC) : Bool :=
  match olmc.output with
  | some (.Combinatorial, _) => true
  | _ => false

/-- The per-OLMC tristate-enable condition the claim describes: true
exactly when the OLMC has no output but its feedback is used, or its
output is Tristate, or its output is Combinatorial and the inferred mode
is not Simple. -/
def claim_tristate_cond (olmc : OLMC) (m : Mode) : Bool :=
  (olmc.output.isNone && olmc.feedback) || is_tristate_output olmc ||
    (is_combinatorial_output olmc && (m != Mode.Simple))

/-- An OLMC configuration with the given output kind, active low, no
control equations and no feedback (used by concrete witnesses). -/
def olmc_out (pm : PinMode) : OLMC :=
  { output := some (pm, { line_num := 0, pins := [] }), active := Active.Low, tri_con := none, clock := none, arst := none, aprst := none, feedback := false }

/-- A GAL16V8 blueprint with one Registered and seven Combinatorial
outputs (used by the C6 witness). -/
def bp_reg7c : Blueprint :=
  { chip := Chip.GAL16V8, sig := [], olmcs := olmc_out PinMode.Registered :: List.replicate 7 (olmc_out PinMode.Combinatorial), ar := none, sp := none }

lemma num_cols_pos (c : Chip) : 0 < c.num_cols := by
  cases c <;> decide

lemma get_mode_congr (g g' : GAL) (hc : g'.chip = g.chip) (hs : g'.syn = g.syn)
    (ha : g'.ac0 = g.ac0) : g'.get_mode = g.get_mode := by
  unfold GAL.get_mode
  rw [hc, hs, ha]

lemma pin_table_congr (g g' : GAL) (hc : g'.chip = g.chip) (hs : g'.syn = g.syn)
    (ha : g'.ac0 = g.ac0) : g'.pin_table = g.pin_table := by
  unfold GAL.pin_table
  rw [hc, get_mode_congr g g' hc hs ha]

lemma pin_to_column_congr (g g' : GAL) (hc : g'.chip = g.chip) (hs : g'.syn = g.syn)
    (ha : g'.ac0 = g.ac0) (p : Nat) : g'.pin_to_column p = g.pin_to_column p := by
  unfold GAL.pin_to_column
  rw [pin_table_congr g g' hc hs ha]

lemma all_col_ok_lookup (tbl : List (Except ErrorCode Nat)) (bound i col : Nat)
    (hall : tbl.all (col_ok bound) = true) (h : tbl[i]? = some (.ok col)) :
    col + 1 < bound := by
  have hmem : Except.ok col ∈ tbl := List.getElem?_mem h
  have := List.all_eq_true.mp hall _ hmem
  simpa [col_ok] using this

lemma pin_table_cases (g : GAL) (tbl : List (Except ErrorCode Nat))
    (h : g.pin_table = some tbl) :
    tbl.all (col_ok g.chip.num_cols) = true ∧ tbl.length = g.chip.num_pins ∧
    tbl.all (named_result g.chip.num_cols) = true := by
  unfold GAL.pin_table at h
  cases hc : g.chip <;> rw [hc] at h <;> simp only [Option.map_eq_some'] at h
  case GAL16V8 | GAL20V8 =>
    obtain ⟨m, _, hm⟩ := h
    cases m <;> subst hm <;> exact ⟨by decide, by decide, by decide⟩
  case GAL22V10 | GAL20RA10 =>
    cases h
    exact ⟨by decide, by decide, by decide⟩

lemma pin_to_column_ok_lt (g : GAL) (p col : Nat)
    (h : g.pin_to_column p = some (.ok col)) : col + 1 < g.chip.num_cols := by
  unfold GAL.pin_to_column at h
  cases ht : g.pin_table with
  | none => rw [ht] at h; cases h
  | some tbl =>
    rw [ht] at h
    by_cases hp : p = 0
    · simp [hp] at h
    · simp only [hp, if_false] at h
      exact all_col_ok_lookup tbl _ _ _ (pin_table_cases g tbl ht).1 h

lemma resolves_ok_congr (g g' : GAL) (hc : g'.chip = g.chip) (hs : g'.syn = g.syn)
    (ha : g'.ac0 = g.ac0) (p : Nat) : resolves_ok g' p = resolves_ok g p := by
  unfold resolves_ok
  rw [pin_to_column_congr g g' hc hs ha]

lemma eq_but_fuses_refl (g : GAL) : eq_but_fuses g g :=
  ⟨rfl, rfl, rfl, rfl, rfl, rfl, rfl⟩

lemma eq_but_fuses_trans {g2 g1 g : GAL} (h2 : eq_but_fuses g2 g1)
    (h1 : eq_but_fuses g1 g) : eq_but_fuses g2 g :=
  ⟨h2.1.trans h1.1, h2.2.1.trans h1.2.1, h2.2.2.1.trans h1.2.2.1,
   h2.2.2.2.1.trans h1.2.2.2.1, h2.2.2.2.2.1.trans h1.2.2.2.2.1,
   h2.2.2.2.2.2.1.trans h1.2.2.2.2.2.1, h2.2.2.2.2.2.2.trans h1.2.2.2.2.2.2⟩

lemma set_and_cases (g : GAL) (row p : Nat) (n : Bool) (g1 : GAL)
    (r : Except ErrorCode Unit) (h : g.set_and row p n = some (g1, r)) :
    eq_but_fuses g1 g ∧ g1.fuses.length = g.fuses.length ∧
    ((g1 = g ∧ ∃ e, r = .error e) ∨
      (r = .ok () ∧ ∃ idx, row * g.chip.num_cols ≤ idx ∧
        idx < (row + 1) * g.chip.num_cols ∧ idx < g.fuses.length ∧
        g1.fuses = g.fuses.set idx false)) := by
  unfold GAL.set_and at h
  split at h
  · cases h
  · rename_i e heq
    simp only [Option.some_inj, Prod.mk.injEq] at h
    obtain ⟨h1, h2⟩ := h
    exact ⟨h1 ▸ eq_but_fuses_refl g, by rw [← h1], Or.inl ⟨h1.symm, e, h2.symm⟩⟩
  · rename_i column heq
    have hcol := pin_to_column_ok_lt g p column heq
    split at h
    · rename_i hlt
      simp only [Option.some_inj, Prod.mk.injEq] at h
      obtain ⟨h1, h2⟩ := h
      refine ⟨?_, ?_, Or.inr ⟨h2.symm,
        row * g.chip.num_cols + column + n.toNat, ?_, ?_, ?_, ?_⟩⟩
      · rw [← h1]
        exact ⟨rfl, rfl, rfl, rfl, rfl, rfl, rfl⟩
      · rw [← h1]; simp
      · omega
      · have : (row + 1) * g.chip.num_cols = row * g.chip.num_cols + g.chip.num_cols :=
          Nat.succ_mul row g.chip.num_cols
        have hoff : n.toNat ≤ 1 := by cases n <;> simp
        omega
      · exact hlt
      · rw [← h1]
    · cases h

lemma set_and_ok (g : GAL) (row p : Nat) (n : Bool)
    (hres : resolves_ok g p = true)
    (hfit : (row + 1) * g.chip.num_cols ≤ g.fuses.length) :
    ∃ g1, g.set_and row p n = some (g1, .ok ()) := by
  unfold resolves_ok at hres
  cases hc : g.pin_to_column p with
  | none => rw [hc] at hres; cases hres
  | some res =>
    rw [hc] at hres
    cases res with
    | error e => cases hres
    | ok column =>
      have hcol := pin_to_column_ok_lt g p column hc
      have hlt : row * g.chip.num_cols + column + n.toNat < g.fuses.length := by
        have : (row + 1) * g.chip.num_cols = row * g.chip.num_cols + g.chip.num_cols :=
          Nat.succ_mul row g.chip.num_cols
        have hoff : n.toNat ≤ 1 := by cases n <;> simp
        omega
      refine ⟨{ g with fuses := g.fuses.set (row * g.chip.num_cols + column + n.toNat) false }, ?_⟩
      unfold GAL.set_and
      rw [hc]
      exact if_pos hlt

lemma add_row_cases (pins : List Pin) (g : GAL) (line row : Nat) (g1 : GAL)
    (r : Except Error Unit) (h : g.add_row line row pins = some (g1, r)) :
    eq_but_fuses g1 g ∧ g1.fuses.length = g.fuses.length ∧
    ∀ k, (k < row * g.chip.num_cols ∨ (row + 1) * g.chip.num_cols ≤ k) →
      g1.fuses[k]? = g.fuses[k]? := by
  induction pins generalizing g g1 r with
  | nil =>
    unfold GAL.add_row at h
    simp only [Option.some_inj, Prod.mk.injEq] at h
    rw [← h.1]
    exact ⟨eq_but_fuses_refl g, rfl, fun k _ => rfl⟩
  | cons input rest ih =>
    unfold GAL.add_row at h
    split at h
    · cases h
    · rename_i ga e hsa
      obtain ⟨hfe, hlen, hca⟩ := set_and_cases g row input.pin _ ga _ hsa
      have hframe_a : ∀ k, (k < row * g.chip.num_cols ∨ (row + 1) * g.chip.num_cols ≤ k) →
          ga.fuses[k]? = g.fuses[k]? := by
        intro k hk
        rcases hca with ⟨heq, -⟩ | ⟨hok, -⟩
        · rw [heq]
        · cases hok
      simp only [Option.some_inj, Prod.mk.injEq] at h
      obtain ⟨h1, -⟩ := h
      rw [← h1]
      exact ⟨hfe, hlen, hframe_a⟩
    · rename_i ga u hsa
      obtain ⟨hfe, hlen, hca⟩ := set_and_cases g row input.pin _ ga _ hsa
      have hframe_a : ∀ k, (k < row * g.chip.num_cols ∨ (row + 1) * g.chip.num_cols ≤ k) →
          ga.fuses[k]? = g.fuses[k]? := by
        intro k hk
        rcases hca with ⟨heq, -⟩ | ⟨-, idx, hlo, hhi, -, hset⟩
        · rw [heq]
        · rw [hset]
          exact List.getElem?_set_ne (by omega)
      have := ih ga g1 r h
      rw [hfe.1] at this
      obtain ⟨hfe2, hlen2, hframe2⟩ := this
      exact ⟨eq_but_fuses_trans hfe2 hfe, hlen2.trans hlen,
        fun k hk => (hframe2 k hk).trans (hframe_a k hk)⟩

lemma add_row_ok (pins : List Pin) (g : GAL) (line row : Nat)
    (hres : ∀ p ∈ pins, resolves_ok g p.pin = true)
    (hfit : (row + 1) * g.chip.num_cols ≤ g.fuses.length) :
    ∃ g1, g.add_row line row pins = some (g1, .ok ()) := by
  induction pins generalizing g with
  | nil => exact ⟨g, rfl⟩
  | cons input rest ih =>
    obtain ⟨ga, hga⟩ := set_and_ok g row input.pin
      (Bool.xor input.neg (g.needs_flip input.pin))
      (hres input (by simp)) hfit
    obtain ⟨hfe, hlen, -⟩ := set_and_cases g row input.pin _ ga _ hga
    have hres' : ∀ p ∈ rest, resolves_ok ga p.pin = true := by
      intro p hp
      rw [resolves_ok_congr g ga hfe.1 hfe.2.2.2.2.2.1 hfe.2.2.2.2.2.2]
      exact hres p (by simp [hp])
    have hfit' : (row + 1) * ga.chip.num_cols ≤ ga.fuses.length := by
      rw [hfe.1, hlen]; exact hfit
    obtain ⟨g1, hg1⟩ := ih ga hres' hfit'
    refine ⟨g1, ?_⟩
    unfold GAL.add_row
    rw [hga]
    exact hg1

lemma zero_fuses_length (l : List Bool) (s : Nat) :
    ∀ n, (zero_fuses l s n).length = l.length := by
  intro n
  induction n with
  | zero => rfl
  | succ n ih => unfold zero_fuses; rw [List.length_set, ih]

lemma zero_fuses_getElem (l : List Bool) (s : Nat) :
    ∀ n k, (zero_fuses l s n)[k]? =
      if s ≤ k ∧ k < s + n then (if k < l.length then some false else none)
      else l[k]? := by
  intro n
  induction n with
  | zero =>
    intro k
    have hno : ¬ (s ≤ k ∧ k < s + 0) := by omega
    simp only [zero_fuses]
    rw [if_neg hno]
  | succ n ih =>
    intro k
    unfold zero_fuses
    rw [List.getElem?_set, zero_fuses_length, ih]
    split_ifs <;> first | rfl | omega

lemma clear_rows_cases (g : GAL) (b : Bounds) (g1 : GAL)
    (h : g.clear_rows b = some g1) :
    eq_but_fuses g1 g ∧ g1.fuses.length = g.fuses.length ∧
    (∀ k, (k < (b.start_row + b.row_offset) * g.chip.num_cols ∨
        (b.start_row + b.max_row) * g.chip.num_cols ≤ k) →
      g1.fuses[k]? = g.fuses[k]?) ∧
    (∀ k, (b.start_row + b.row_offset) * g.chip.num_cols ≤ k →
        k < (b.start_row + b.max_row) * g.chip.num_cols →
      g1.fuses[k]? = some false) := by
  unfold GAL.clear_rows at h
  split at h
  · rename_i hle
    have hg := Option.some.inj h
    subst hg
    exact ⟨eq_but_fuses_refl g, rfl, fun k _ => rfl, fun k h1 h2 => by omega⟩
  · rename_i hgt
    split at h
    · rename_i hfit
      have hg := Option.some.inj h
      subst hg
      refine ⟨⟨rfl, rfl, rfl, rfl, rfl, rfl, rfl⟩, ?_, ?_, ?_⟩
      · simp [zero_fuses_length]
      · intro k hk
        show (zero_fuses g.fuses _ _)[k]? = g.fuses[k]?
        rw [zero_fuses_getElem]
        rw [if_neg (by omega)]
      · intro k h1 h2
        show (zero_fuses g.fuses _ _)[k]? = some false
        rw [zero_fuses_getElem]
        rw [if_pos (by omega), if_pos (by omega)]
    · cases h

lemma clear_rows_empty (g : GAL) (b : Bounds) (h : b.max_row ≤ b.row_offset) :
    g.clear_rows b = some g := by
  unfold GAL.clear_rows
  rw [if_pos (Nat.mul_le_mul_right _ (by omega))]

lemma clear_rows_fits (g : GAL) (b : Bounds)
    (hfit : (b.start_row + b.max_row) * g.chip.num_cols ≤ g.fuses.length) :
    ∃ g1, g.clear_rows b = some g1 := by
  unfold GAL.clear_rows
  split_ifs with h1
  · exact ⟨g, rfl⟩
  · exact ⟨_, rfl⟩

lemma add_term_loop_cases (groups : List (List Pin)) (g : GAL) (line total : Nat)
    (single : Bool) (b : Bounds) (g1 : GAL) (r : Except Error Bounds)
    (h : g.add_term_loop line total single b groups = some (g1, r))
    (hinv : b.row_offset ≤ b.max_row) :
    eq_but_fuses g1 g ∧ g1.fuses.length = g.fuses.length ∧
    (∀ k, (k < (b.start_row + b.row_offset) * g.chip.num_cols ∨
        (b.start_row + b.max_row) * g.chip.num_cols ≤ k) →
      g1.fuses[k]? = g.fuses[k]?) ∧
    (∀ b1, r = .ok b1 → b1.start_row = b.start_row ∧ b1.max_row = b.max_row ∧
      b.row_offset ≤ b1.row_offset ∧ b1.row_offset ≤ b.max_row) := by
  induction groups generalizing g b g1 r with
  | nil =>
    unfold GAL.add_term_loop at h
    simp only [Option.some_inj, Prod.mk.injEq] at h
    obtain ⟨h1, h2⟩ := h
    rw [← h1]
    refine ⟨eq_but_fuses_refl g, rfl, fun k _ => rfl, ?_⟩
    intro b1 hb1
    rw [← h2] at hb1
    cases hb1
    exact ⟨rfl, rfl, le_refl _, hinv⟩
  | cons row rest ih =>
    unfold GAL.add_term_loop at h
    split at h
    · rename_i hstop
      simp only [Option.some_inj, Prod.mk.injEq] at h
      obtain ⟨h1, h2⟩ := h
      rw [← h1]
      refine ⟨eq_but_fuses_refl g, rfl, fun k _ => rfl, ?_⟩
      intro b1 hb1
      rw [← h2] at hb1
      cases hb1
    · rename_i hne
      have hlt : b.row_offset < b.max_row := by omega
      split at h
      · cases h
      · rename_i ga e hrow
        obtain ⟨hfe, hlen, hframe⟩ := add_row_cases row g line _ ga _ hrow
        simp only [Option.some_inj, Prod.mk.injEq] at h
        obtain ⟨h1, h2⟩ := h
        rw [← h1]
        refine ⟨hfe, hlen, ?_, ?_⟩
        · intro k hk
          apply hframe
          have hmul1 : (b.start_row + b.row_offset + 1) * g.chip.num_cols ≤
              (b.start_row + b.max_row) * g.chip.num_cols :=
            Nat.mul_le_mul_right _ (by omega)
          omega
        · intro b1 hb1
          rw [← h2] at hb1
          cases hb1
      · rename_i ga u hrow
        obtain ⟨hfe, hlen, hframe⟩ := add_row_cases row g line _ ga _ hrow
        have hih := ih ga { b with row_offset := b.row_offset + 1 } g1 r h (by dsimp only; omega)
        rw [hfe.1] at hih
        obtain ⟨hfe2, hlen2, hframe2, hbounds2⟩ := hih
        dsimp only at hframe2 hbounds2
        have hassoc : b.start_row + (b.row_offset + 1) = b.start_row + b.row_offset + 1 := by
          omega
        rw [hassoc] at hframe2
        have hmul1 : (b.start_row + b.row_offset + 1) * g.chip.num_cols ≤
            (b.start_row + b.max_row) * g.chip.num_cols :=
          Nat.mul_le_mul_right _ (by omega)
        have hmul0 : (b.start_row + b.row_offset) * g.chip.num_cols ≤
            (b.start_row + b.row_offset + 1) * g.chip.num_cols :=
          Nat.mul_le_mul_right _ (by omega)
        refine ⟨eq_but_fuses_trans hfe2 hfe, hlen2.trans hlen, ?_, ?_⟩
        · intro k hk
          have hstep : g1.fuses[k]? = ga.fuses[k]? := by
            apply hframe2
            omega
          have hbase : ga.fuses[k]? = g.fuses[k]? := by
            apply hframe
            omega
          exact hstep.trans hbase
        · intro b1 hb1
          have := hbounds2 b1 hb1
          exact ⟨this.1, this.2.1, by omega, by omega⟩

lemma add_term_loop_ok (groups : List (List Pin)) (g : GAL) (line total : Nat)
    (single : Bool) (b : Bounds)
    (hres : ∀ gr ∈ groups, ∀ p ∈ gr, resolves_ok g p.pin = true)
    (hfit : (b.start_row + b.max_row) * g.chip.num_cols ≤ g.fuses.length)
    (hroom : b.row_offset + groups.length ≤ b.max_row) :
    ∃ g1, g.add_term_loop line total single b groups =
      some (g1, .ok { b with row_offset := b.row_offset + groups.length }) := by
  induction groups generalizing g b with
  | nil =>
    refine ⟨g, ?_⟩
    unfold GAL.add_term_loop
    rfl
  | cons row rest ih =>
    have hne : b.row_offset ≠ b.max_row := by
      simp only [List.length_cons] at hroom
      omega
    have hfitrow : (b.start_row + b.row_offset + 1) * g.chip.num_cols ≤ g.fuses.length := by
      have : (b.start_row + b.row_offset + 1) * g.chip.num_cols ≤
          (b.start_row + b.max_row) * g.chip.num_cols :=
        Nat.mul_le_mul_right _ (by simp only [List.length_cons] at hroom; omega)
      omega
    obtain ⟨ga, hga⟩ := add_row_ok row g line (b.start_row + b.row_offset)
      (hres row (by simp)) hfitrow
    obtain ⟨hfe, hlen, -⟩ := add_row_cases row g line _ ga _ hga
    have hres' : ∀ gr ∈ rest, ∀ p ∈ gr, resolves_ok ga p.pin = true := by
      intro gr hgr p hp
      rw [resolves_ok_congr g ga hfe.1 hfe.2.2.2.2.2.1 hfe.2.2.2.2.2.2]
      exact hres gr (by simp [hgr]) p hp
    have hfit' : (b.start_row + b.max_row) * ga.chip.num_cols ≤ ga.fuses.length := by
      rw [hfe.1, hlen]
      exact hfit
    have hih := ih ga { b with row_offset := b.row_offset + 1 }
      hres' (by dsimp only; exact hfit')
      (by dsimp only; simp only [List.length_cons] at hroom; omega)
    obtain ⟨g1, hg1⟩ := hih
    dsimp only at hg1
    have harith : b.row_offset + (row :: rest).length = b.row_offset + 1 + rest.length := by
      simp only [List.length_cons]
      omega
    refine ⟨g1, ?_⟩
    rw [harith]
    unfold GAL.add_term_loop
    rw [if_neg hne, hga]
    exact hg1

lemma add_term_loop_overflow (groups : List (List Pin)) (g : GAL) (line total : Nat)
    (single : Bool) (b : Bounds)
    (hres : ∀ gr ∈ groups, ∀ p ∈ gr, resolves_ok g p.pin = true)
    (hfit : (b.start_row + b.max_row) * g.chip.num_cols ≤ g.fuses.length)
    (hinv : b.row_offset ≤ b.max_row)
    (hover : b.max_row - b.row_offset < groups.length) :
    ∃ g1, g.add_term_loop line total single b groups =
      some (g1, .error ⟨line,
        if single then ErrorCode.MoreThanOneProduct
        else ErrorCode.TooManyProducts (b.max_row - 1) total⟩) := by
  induction groups generalizing g b with
  | nil => simp at hover
  | cons row rest ih =>
    by_cases hstop : b.row_offset = b.max_row
    · refine ⟨g, ?_⟩
      unfold GAL.add_term_loop
      rw [if_pos hstop]
    · have hlt : b.row_offset < b.max_row := by omega
      have hfitrow : (b.start_row + b.row_offset + 1) * g.chip.num_cols ≤ g.fuses.length := by
        have : (b.start_row + b.row_offset + 1) * g.chip.num_cols ≤
            (b.start_row + b.max_row) * g.chip.num_cols :=
          Nat.mul_le_mul_right _ (by omega)
        omega
      obtain ⟨ga, hga⟩ := add_row_ok row g line (b.start_row + b.row_offset)
        (hres row (by simp)) hfitrow
      obtain ⟨hfe, hlen, -⟩ := add_row_cases row g line _ ga _ hga
      have hres' : ∀ gr ∈ rest, ∀ p ∈ gr, resolves_ok ga p.pin = true := by
        intro gr hgr p hp
        rw [resolves_ok_congr g ga hfe.1 hfe.2.2.2.2.2.1 hfe.2.2.2.2.2.2]
        exact hres gr (by simp [hgr]) p hp
      have hfit' : (b.start_row + b.max_row) * ga.chip.num_cols ≤ ga.fuses.length := by
        rw [hfe.1, hlen]
        exact hfit
      have hih := ih ga { b with row_offset := b.row_offset + 1 }
        hres' (by dsimp only; exact hfit') (by dsimp only; omega)
        (by dsimp only; simp only [List.length_cons] at hover; omega)
      obtain ⟨g1, hg1⟩ := hih
      dsimp only at hg1
      refine ⟨g1, ?_⟩
      unfold GAL.add_term_loop
      rw [if_neg hstop, hga]
      exact hg1

lemma add_term_of_loop_ok (g : GAL) (t : Term) (b : Bounds) (ga : GAL) (b1 : Bounds)
    (g2 : GAL)
    (hl : g.add_term_loop t.line_num t.pins.length (b.max_row == b.row_offset + 1) b t.pins =
      some (ga, .ok b1))
    (hc : ga.clear_rows b1 = some g2) :
    g.add_term t b = some (g2, .ok ()) := by
  unfold GAL.add_term
  rw [hl]
  show (match ga.clear_rows b1 with
    | none => none
    | some g2 => some (g2, Except.ok ())) = some (g2, Except.ok ())
  rw [hc]

lemma add_term_of_loop_err (g : GAL) (t : Term) (b : Bounds) (ga : GAL) (e : Error)
    (hl : g.add_term_loop t.line_num t.pins.length (b.max_row == b.row_offset + 1) b t.pins =
      some (ga, .error e)) :
    g.add_term t b = some (ga, .error e) := by
  unfold GAL.add_term
  rw [hl]

lemma add_term_cases (g : GAL) (t : Term) (b : Bounds) (g1 : GAL) (r : Except Error Unit)
    (h : g.add_term t b = some (g1, r)) (hinv : b.row_offset ≤ b.max_row) :
    eq_but_fuses g1 g ∧ g1.fuses.length = g.fuses.length ∧
    ∀ k, (k < (b.start_row + b.row_offset) * g.chip.num_cols ∨
        (b.start_row + b.max_row) * g.chip.num_cols ≤ k) →
      g1.fuses[k]? = g.fuses[k]? := by
  unfold GAL.add_term at h
  split at h
  · cases h
  · rename_i ga e hl
    obtain ⟨hfe, hlen, hframe, -⟩ := add_term_loop_cases t.pins g _ _ _ b ga _ hl hinv
    simp only [Option.some_inj, Prod.mk.injEq] at h
    obtain ⟨h1, -⟩ := h
    rw [← h1]
    exact ⟨hfe, hlen, hframe⟩
  · rename_i ga b1 hl
    obtain ⟨hfe, hlen, hframe, hbounds⟩ := add_term_loop_cases t.pins g _ _ _ b ga _ hl hinv
    obtain ⟨hb1s, hb1m, hb1lo, hb1hi⟩ := hbounds b1 rfl
    split at h
    · cases h
    · rename_i g2 hc
      obtain ⟨hfe2, hlen2, hframe2, -⟩ := clear_rows_cases ga b1 g2 hc
      simp only [Option.some_inj, Prod.mk.injEq] at h
      obtain ⟨h1, -⟩ := h
      rw [← h1]
      refine ⟨eq_but_fuses_trans hfe2 hfe, hlen2.trans hlen, ?_⟩
      intro k hk
      have hCnum : ga.chip.num_cols = g.chip.num_cols := by rw [hfe.1]
      have hmul : (b.start_row + b.row_offset) * g.chip.num_cols ≤
          (b.start_row + b1.row_offset) * g.chip.num_cols :=
        Nat.mul_le_mul_right _ (by omega)
      have hstep : g2.fuses[k]? = ga.fuses[k]? := by
        apply hframe2
        rw [hb1s, hb1m, hCnum]
        omega
      exact hstep.trans (hframe k hk)

lemma add_term_ok (g : GAL) (t : Term) (b : Bounds)
    (hres : ∀ gr ∈ t.pins, ∀ p ∈ gr, resolves_ok g p.pin = true)
    (hfit : (b.start_row + b.max_row) * g.chip.num_cols ≤ g.fuses.length)
    (hroom : b.row_offset + t.pins.length ≤ b.max_row) :
    ∃ g1, g.add_term t b = some (g1, .ok ()) := by
  obtain ⟨ga, hga⟩ := add_term_loop_ok t.pins g t.line_num t.pins.length
    (b.max_row == b.row_offset + 1) b hres hfit hroom
  obtain ⟨hfe, hlen, -⟩ := add_term_loop_cases t.pins g _ _ _ b ga _ hga (by omega)
  obtain ⟨g2, hg2⟩ := clear_rows_fits ga { b with row_offset := b.row_offset + t.pins.length }
    (by dsimp only; rw [hfe.1, hlen]; exact hfit)
  exact ⟨g2, add_term_of_loop_ok g t b ga _ g2 hga hg2⟩

lemma add_term_exact (g : GAL) (t : Term) (b : Bounds)
    (hres : ∀ gr ∈ t.pins, ∀ p ∈ gr, resolves_ok g p.pin = true)
    (hfit : (b.start_row + b.max_row) * g.chip.num_cols ≤ g.fuses.length)
    (hexact : b.row_offset + t.pins.length = b.max_row) :
    ∃ g1, g.add_term_loop t.line_num t.pins.length (b.max_row == b.row_offset + 1) b t.pins =
        some (g1, .ok { b with row_offset := b.max_row }) ∧
      g.add_term t b = some (g1, .ok ()) := by
  obtain ⟨ga, hga⟩ := add_term_loop_ok t.pins g t.line_num t.pins.length
    (b.max_row == b.row_offset + 1) b hres hfit (by omega)
  rw [show b.row_offset + t.pins.length = b.max_row from hexact] at hga
  refine ⟨ga, hga, ?_⟩
  exact add_term_of_loop_ok g t b ga _ ga hga
    (clear_rows_empty ga { b with row_offset := b.max_row } (by dsimp only; omega))

lemma add_term_overflow (g : GAL) (t : Term) (b : Bounds)
    (hres : ∀ gr ∈ t.pins, ∀ p ∈ gr, resolves_ok g p.pin = true)
    (hfit : (b.start_row + b.max_row) * g.chip.num_cols ≤ g.fuses.length)
    (hinv : b.row_offset ≤ b.max_row)
    (hover : b.max_row - b.row_offset < t.pins.length) :
    ∃ g1, g.add_term t b = some (g1, .error
      { line := t.line_num,
        code := if b.max_row = b.row_offset + 1 then ErrorCode.MoreThanOneProduct
          else ErrorCode.TooManyProducts (b.max_row - 1) t.pins.length }) := by
  obtain ⟨ga, hga⟩ := add_term_loop_overflow t.pins g t.line_num t.pins.length
    (b.max_row == b.row_offset + 1) b hres hfit hinv hover
  refine ⟨ga, ?_⟩
  have hif : (if (b.max_row == b.row_offset + 1) = true then ErrorCode.MoreThanOneProduct
      else ErrorCode.TooManyProducts (b.max_row - 1) t.pins.length) =
      (if b.max_row = b.row_offset + 1 then ErrorCode.MoreThanOneProduct
      else ErrorCode.TooManyProducts (b.max_row - 1) t.pins.length) := by
    by_cases hb : b.max_row = b.row_offset + 1
    · rw [if_pos hb, if_pos (by simpa using hb)]
    · rw [if_neg hb, if_neg (by simpa using hb)]
  rw [hif] at hga
  exact add_term_of_loop_err g t b ga _ hga

lemma new_fuses_length (c : Chip) : (GAL.new c).fuses.length = c.logic_size := by
  simp [GAL.new]

lemma add_term_empty_loop (g : GAL) (L : Nat) (b : Bounds) (single : Bool) (total : Nat) :
    g.add_term_loop L total single b [] = some (g, .ok b) := rfl

lemma add_term_singleton_empty_loop (g : GAL) (L : Nat) (b : Bounds) (single : Bool)
    (total : Nat) (hne : b.row_offset ≠ b.max_row) :
    g.add_term_loop L total single b [[]] =
      some (g, .ok { b with row_offset := b.row_offset + 1 }) := by
  unfold GAL.add_term_loop
  rw [if_neg hne]
  rfl

/-- C1: `add_term` returns the line-tagged overflow diagnostic exactly
when the Term has more AND-groups than rows remaining in the reservation
(`MoreThanOneProduct` when the field allowed only one row,
`TooManyProducts` otherwise), and a Term with exactly as many AND-groups
as remaining rows — all of whose pins resolve to columns — succeeds with
no row left zeroed-as-unused (the final `clear_rows` touches nothing, so
the result is exactly the state left by the row-filling loop). -/
theorem add_term_overflow_exactly (g : GAL) (t : Term) (b : Bounds)
    (hinv : b.row_offset ≤ b.max_row)
    (hfit : (b.start_row + b.max_row) * g.chip.num_cols ≤ g.fuses.length)
    (hres : ∀ gr ∈ t.pins, ∀ p ∈ gr, resolves_ok g p.pin = true) :
    (b.max_row - b.row_offset < t.pins.length →
      ∃ g1, g.add_term t b = some (g1, .error
        { line := t.line_num,
          code := if b.max_row = b.row_offset + 1 then ErrorCode.MoreThanOneProduct
            else ErrorCode.TooManyProducts (b.max_row - 1) t.pins.length })) ∧
    (t.pins.length ≤ b.max_row - b.row_offset →
      ∃ g1, g.add_term t b = some (g1, .ok ())) ∧
    (t.pins.length = b.max_row - b.row_offset →
      ∃ g1, g.add_term_loop t.line_num t.pins.length (b.max_row == b.row_offset + 1) b t.pins
          = some (g1, .ok { b with row_offset := b.max_row }) ∧
        g.add_term t b = some (g1, .ok ())) := by
  refine ⟨?_, ?_, ?_⟩
  · intro hover
    exact add_term_overflow g t b hres hfit hinv hover
  · intro hroom
    exact add_term_ok g t b hres hfit (by omega)
  · intro hexact
    exact add_term_exact g t b hres hfit (by omega)

/-- C1 witness: a three-AND-group term into a two-row reservation on a
GAL20RA10 overflows with `TooManyProducts`. -/
theorem add_term_overflow_exactly_witness :
    ((⟨0, 2, 0⟩ : Bounds).row_offset ≤ (⟨0, 2, 0⟩ : Bounds).max_row ∧
      ((⟨0, 2, 0⟩ : Bounds).start_row + (⟨0, 2, 0⟩ : Bounds).max_row) *
        (GAL.new Chip.GAL20RA10).chip.num_cols ≤ (GAL.new Chip.GAL20RA10).fuses.length ∧
      (∀ gr ∈ (⟨9, [[⟨2, false⟩], [⟨3, true⟩], [⟨4, false⟩]]⟩ : Term).pins, ∀ p ∈ gr,
        resolves_ok (GAL.new Chip.GAL20RA10) p.pin = true)) ∧
    ((⟨0, 2, 0⟩ : Bounds).max_row - (⟨0, 2, 0⟩ : Bounds).row_offset <
        (⟨9, [[⟨2, false⟩], [⟨3, true⟩], [⟨4, false⟩]]⟩ : Term).pins.length →
      ∃ g1, (GAL.new Chip.GAL20RA10).add_term
          ⟨9, [[⟨2, false⟩], [⟨3, true⟩], [⟨4, false⟩]]⟩ ⟨0, 2, 0⟩ = some (g1, .error
        { line := (⟨9, [[⟨2, false⟩], [⟨3, true⟩], [⟨4, false⟩]]⟩ : Term).line_num,
          code := if (⟨0, 2, 0⟩ : Bounds).max_row = (⟨0, 2, 0⟩ : Bounds).row_offset + 1 then
              ErrorCode.MoreThanOneProduct
            else ErrorCode.TooManyProducts ((⟨0, 2, 0⟩ : Bounds).max_row - 1)
              (⟨9, [[⟨2, false⟩], [⟨3, true⟩], [⟨4, false⟩]]⟩ : Term).pins.length })) :=
  ⟨⟨by decide, by rw [new_fuses_length]; decide, by decide⟩,
    (add_term_overflow_exactly (GAL.new Chip.GAL20RA10)
      ⟨9, [[⟨2, false⟩], [⟨3, true⟩], [⟨4, false⟩]]⟩ ⟨0, 2, 0⟩
      (by decide) (by rw [new_fuses_length]; decide) (by decide)).1⟩

/-- C2: compiling the constant-true Term (one empty AND-group) into a
single-row reservation blows zero fuses in that row (the fuse state is
returned unchanged), and compiling the constant-false Term (zero
AND-groups) into a k-row reservation blows every column — both polarity
columns of every input — of all k reserved rows, leaving everything
outside the reservation unchanged. -/
theorem add_term_constant_terms (g : GAL) (L : Nat) (b : Bounds) :
    (b.max_row = b.row_offset + 1 →
      g.add_term (true_term L) b = some (g, .ok ())) ∧
    (b.row_offset ≤ b.max_row →
     (b.start_row + b.max_row) * g.chip.num_cols ≤ g.fuses.length →
      ∃ g1, g.add_term (false_term L) b = some (g1, .ok ()) ∧
        eq_but_fuses g1 g ∧
        (∀ k, (b.start_row + b.row_offset) * g.chip.num_cols ≤ k →
          k < (b.start_row + b.max_row) * g.chip.num_cols → g1.fuses[k]? = some false) ∧
        (∀ k, (k < (b.start_row + b.row_offset) * g.chip.num_cols ∨
          (b.start_row + b.max_row) * g.chip.num_cols ≤ k) →
          g1.fuses[k]? = g.fuses[k]?)) := by
  constructor
  · intro hb
    have h1 : g.add_term_loop L 1 (b.max_row == b.row_offset + 1) b [[]] =
        some (g, .ok { b with row_offset := b.row_offset + 1 }) :=
      add_term_singleton_empty_loop g L b _ 1 (by omega)
    exact add_term_of_loop_ok g (true_term L) b g _ g h1
      (clear_rows_empty g { b with row_offset := b.row_offset + 1 } (by dsimp only; omega))
  · intro hinv hfit
    obtain ⟨g1, hg1⟩ := clear_rows_fits g b hfit
    obtain ⟨hfe, hlen, hout, hin⟩ := clear_rows_cases g b g1 hg1
    refine ⟨g1, ?_, hfe, hin, hout⟩
    exact add_term_of_loop_ok g (false_term L) b g b g1
      (add_term_empty_loop g L b _ 0) hg1

/-- C2 witness: on a fresh GAL16V8, the constant-true Term into the
single-row reservation at row 0 leaves the state unchanged, and the
constant-false Term into the same reservation succeeds. -/
theorem add_term_constant_terms_witness :
    ((⟨0, 1, 0⟩ : Bounds).max_row = (⟨0, 1, 0⟩ : Bounds).row_offset + 1 ∧
      (⟨0, 1, 0⟩ : Bounds).row_offset ≤ (⟨0, 1, 0⟩ : Bounds).max_row ∧
      ((⟨0, 1, 0⟩ : Bounds).start_row + (⟨0, 1, 0⟩ : Bounds).max_row) *
        (GAL.new Chip.GAL16V8).chip.num_cols ≤ (GAL.new Chip.GAL16V8).fuses.length) ∧
    (GAL.new Chip.GAL16V8).add_term (true_term 7) ⟨0, 1, 0⟩ =
      some (GAL.new Chip.GAL16V8, .ok ()) ∧
    (∃ g1, (GAL.new Chip.GAL16V8).add_term (false_term 7) ⟨0, 1, 0⟩ = some (g1, .ok ()) ∧
      eq_but_fuses g1 (GAL.new Chip.GAL16V8) ∧
      (∀ k, ((⟨0, 1, 0⟩ : Bounds).start_row + (⟨0, 1, 0⟩ : Bounds).row_offset) *
          (GAL.new Chip.GAL16V8).chip.num_cols ≤ k →
        k < ((⟨0, 1, 0⟩ : Bounds).start_row + (⟨0, 1, 0⟩ : Bounds).max_row) *
          (GAL.new Chip.GAL16V8).chip.num_cols → g1.fuses[k]? = some false) ∧
      (∀ k, (k < ((⟨0, 1, 0⟩ : Bounds).start_row + (⟨0, 1, 0⟩ : Bounds).row_offset) *
          (GAL.new Chip.GAL16V8).chip.num_cols ∨
        ((⟨0, 1, 0⟩ : Bounds).start_row + (⟨0, 1, 0⟩ : Bounds).max_row) *
          (GAL.new Chip.GAL16V8).chip.num_cols ≤ k) →
        g1.fuses[k]? = (GAL.new Chip.GAL16V8).fuses[k]?)) :=
  ⟨⟨by decide, by decide, by rw [new_fuses_length]; decide⟩,
    (add_term_constant_terms (GAL.new Chip.GAL16V8) 7 ⟨0, 1, 0⟩).1 (by decide),
    (add_term_constant_terms (GAL.new Chip.GAL16V8) 7 ⟨0, 1, 0⟩).2 (by decide)
      (by rw [new_fuses_length]; decide)⟩

/-- C10: `add_term` (and `add_term_opt`) modifies only main-array fuse
bits lying in rows `start_row + row_offset` through `start_row +
max_row - 1` of its Bounds; every fuse outside that row range and every
other fuse-state field (xor, sig, ac1, pt, syn, ac0, chip) is left
unchanged, whether the call succeeds or returns a diagnostic. -/
theorem add_term_frame_effect (g : GAL) (b : Bounds) (hinv : b.row_offset ≤ b.max_row) :
    (∀ (t : Term) (g1 : GAL) (r : Except Error Unit), g.add_term t b = some (g1, r) →
      eq_but_fuses g1 g ∧ g1.fuses.length = g.fuses.length ∧
      ∀ k, (k < (b.start_row + b.row_offset) * g.chip.num_cols ∨
          (b.start_row + b.max_row) * g.chip.num_cols ≤ k) →
        g1.fuses[k]? = g.fuses[k]?) ∧
    (∀ (ot : Option Term) (g1 : GAL) (r : Except Error Unit),
      g.add_term_opt ot b = some (g1, r) →
      eq_but_fuses g1 g ∧ g1.fuses.length = g.fuses.length ∧
      ∀ k, (k < (b.start_row + b.row_offset) * g.chip.num_cols ∨
          (b.start_row + b.max_row) * g.chip.num_cols ≤ k) →
        g1.fuses[k]? = g.fuses[k]?) := by
  refine ⟨fun t g1 r h => add_term_cases g t b g1 r h hinv, ?_⟩
  intro ot g1 r h
  cases ot with
  | some t => exact add_term_cases g t b g1 r h hinv
  | none => exact add_term_cases g (false_term 0) b g1 r h hinv

/-- C10 witness: the frame property applied on a fresh GAL20RA10 at the
two-row reservation starting at row 0. -/
theorem add_term_frame_effect_witness :
    ((⟨0, 2, 0⟩ : Bounds).row_offset ≤ (⟨0, 2, 0⟩ : Bounds).max_row) ∧
    ((∀ (t : Term) (g1 : GAL) (r : Except Error Unit),
      (GAL.new Chip.GAL20RA10).add_term t ⟨0, 2, 0⟩ = some (g1, r) →
      eq_but_fuses g1 (GAL.new Chip.GAL20RA10) ∧
      g1.fuses.length = (GAL.new Chip.GAL20RA10).fuses.length ∧
      ∀ k, (k < ((⟨0, 2, 0⟩ : Bounds).start_row + (⟨0, 2, 0⟩ : Bounds).row_offset) *
          (GAL.new Chip.GAL20RA10).chip.num_cols ∨
          ((⟨0, 2, 0⟩ : Bounds).start_row + (⟨0, 2, 0⟩ : Bounds).max_row) *
            (GAL.new Chip.GAL20RA10).chip.num_cols ≤ k) →
        g1.fuses[k]? = (GAL.new Chip.GAL20RA10).fuses[k]?) ∧
    (∀ (ot : Option Term) (g1 : GAL) (r : Except Error Unit),
      (GAL.new Chip.GAL20RA10).add_term_opt ot ⟨0, 2, 0⟩ = some (g1, r) →
      eq_but_fuses g1 (GAL.new Chip.GAL20RA10) ∧
      g1.fuses.length = (GAL.new Chip.GAL20RA10).fuses.length ∧
      ∀ k, (k < ((⟨0, 2, 0⟩ : Bounds).start_row + (⟨0, 2, 0⟩ : Bounds).row_offset) *
          (GAL.new Chip.GAL20RA10).chip.num_cols ∨
          ((⟨0, 2, 0⟩ : Bounds).start_row + (⟨0, 2, 0⟩ : Bounds).max_row) *
            (GAL.new Chip.GAL20RA10).chip.num_cols ≤ k) →
        g1.fuses[k]? = (GAL.new Chip.GAL20RA10).fuses[k]?)) :=
  ⟨by decide, add_term_frame_effect (GAL.new Chip.GAL20RA10) ⟨0, 2, 0⟩ (by decide)⟩

lemma pin_table_some (g : GAL)
    (hmode : g.chip = Chip.GAL16V8 ∨ g.chip = Chip.GAL20V8 → g.get_mode ≠ none) :
    ∃ tbl, g.pin_table = some tbl := by
  unfold GAL.pin_table
  cases hc : g.chip
  case GAL16V8 | GAL20V8 =>
    cases hm : g.get_mode with
    | none => exact absurd hm (hmode (by simp [hc]))
    | some m => exact ⟨_, rfl⟩
  case GAL22V10 | GAL20RA10 => exact ⟨_, rfl⟩

/-- C9: pin-to-column resolution is total over the full 1-based pin range
of the device, for every family and (via the mode fuses) every mode: it
always returns a column offset that fits inside a row, or one of the five
specifically named diagnostics — never an unlabeled failure or an
out-of-bounds access. -/
theorem pin_to_column_total (g : GAL) (pin : Nat)
    (h1 : 1 ≤ pin) (h2 : pin ≤ g.chip.num_pins)
    (hmode : g.chip = Chip.GAL16V8 ∨ g.chip = Chip.GAL20V8 → g.get_mode ≠ none) :
    ∃ r, g.pin_to_column pin = some r ∧ named_result g.chip.num_cols r = true := by
  obtain ⟨tbl, htbl⟩ := pin_table_some g hmode
  obtain ⟨-, hlen, hnamed⟩ := pin_table_cases g tbl htbl
  have hidx : pin - 1 < tbl.length := by omega
  refine ⟨tbl[pin - 1], ?_, ?_⟩
  · unfold GAL.pin_to_column
    rw [htbl]
    show (if pin = 0 then none else tbl[pin - 1]?) = some (tbl[pin - 1])
    rw [if_neg (show ¬ pin = 0 by omega)]
    exact List.getElem?_eq_getElem hidx
  · exact List.all_eq_true.mp hnamed _ (List.getElem_mem hidx)

lemma cannot_use_simple_eq_any : ∀ (l : List OLMC) (n : Nat),
    cannot_use_simple n l = (l.enumFrom n).any (fun p =>
      p.2.feedback && ((p.2.output.isNone && (p.1 == 3 || p.1 == 4)) || p.2.output.isSome)) := by
  intro l
  induction l with
  | nil => intro n; rfl
  | cons olmc rest ih =>
    intro n
    have hstep : cannot_use_simple n (olmc :: rest) =
        (if olmc.feedback then
          match olmc.output with
          | none => if n = 3 ∨ n = 4 then true else cannot_use_simple (n + 1) rest
          | some _ => true
        else cannot_use_simple (n + 1) rest) := rfl
    rw [List.enumFrom_cons, List.any_cons, ← ih, hstep]
    cases hfb : olmc.feedback
    · simp
    · cases hout : olmc.output with
      | none =>
        by_cases h34 : n = 3 ∨ n = 4
        · have hbeq : (n == 3 || n == 4) = true := by
            rcases h34 with h | h <;> subst h <;> decide
          simp [hbeq, if_pos h34]
        · have hbeq : (n == 3 || n == 4) = false := by
            simp only [Bool.or_eq_false_iff, beq_eq_false_iff_ne]
            omega
          simp [hbeq, if_neg h34]
      | some po =>
        simp

/-- C3: for every sequence of exactly 8 OLMC configurations,
`analyse_mode` is deterministic and applies its rules in priority order
with first match winning, agreeing with `claim_mode` above; in
particular one Registered output plus five Tristate outputs infers
Registered, not Complex. -/
theorem analyse_mode_priority (olmcs : List OLMC) (h8 : olmcs.length = 8) :
    analyse_mode olmcs = some (claim_mode olmcs) ∧
    analyse_mode
      [⟨some (.Registered, ⟨0, []⟩), .Low, none, none, none, none, false⟩,
       ⟨some (.Tristate, ⟨0, []⟩), .Low, none, none, none, none, false⟩,
       ⟨some (.Tristate, ⟨0, []⟩), .Low, none, none, none, none, false⟩,
       ⟨some (.Tristate, ⟨0, []⟩), .Low, none, none, none, none, false⟩,
       ⟨some (.Tristate, ⟨0, []⟩), .Low, none, none, none, none, false⟩,
       ⟨some (.Tristate, ⟨0, []⟩), .Low, none, none, none, none, false⟩,
       ⟨some (.Combinatorial, ⟨0, []⟩), .Low, none, none, none, none, false⟩,
       ⟨some (.Combinatorial, ⟨0, []⟩), .Low, none, none, none, none, false⟩]
      = some Mode.Registered := by
  refine ⟨?_, by decide⟩
  unfold analyse_mode claim_mode
  rw [if_pos h8, cannot_use_simple_eq_any]
  rfl

/-- C3 witness: the priority characterization applied to the
all-Combinatorial 8-OLMC configuration (whose claimed mode is Simple). -/
theorem analyse_mode_priority_witness :
    (List.replicate 8
      (⟨some (.Combinatorial, ⟨0, []⟩), .Low, none, none, none, none, false⟩ : OLMC)).length
      = 8 ∧
    (analyse_mode (List.replicate 8
        (⟨some (.Combinatorial, ⟨0, []⟩), .Low, none, none, none, none, false⟩ : OLMC)) =
      some (claim_mode (List.replicate 8
        (⟨some (.Combinatorial, ⟨0, []⟩), .Low, none, none, none, none, false⟩ : OLMC))) ∧
     analyse_mode
      [⟨some (.Registered, ⟨0, []⟩), .Low, none, none, none, none, false⟩,
       ⟨some (.Tristate, ⟨0, []⟩), .Low, none, none, none, none, false⟩,
       ⟨some (.Tristate, ⟨0, []⟩), .Low, none, none, none, none, false⟩,
       ⟨some (.Tristate, ⟨0, []⟩), .Low, none, none, none, none, false⟩,
       ⟨some (.Tristate, ⟨0, []⟩), .Low, none, none, none, none, false⟩,
       ⟨some (.Tristate, ⟨0, []⟩), .Low, none, none, none, none, false⟩,
       ⟨some (.Combinatorial, ⟨0, []⟩), .Low, none, none, none, none, false⟩,
       ⟨some (.Combinatorial, ⟨0, []⟩), .Low, none, none, none, none, false⟩]
      = some Mode.Registered) :=
  ⟨by decide,
    analyse_mode_priority (List.replicate 8
      ⟨some (.Combinatorial, ⟨0, []⟩), .Low, none, none, none, none, false⟩) (by decide)⟩

lemma getD_of_getElem? {l : List Bool} {m : Nat} (hm : m < l.length) :
    l[m]? = some (l.getD m false) := by
  rw [List.getD_eq_getElem?_getD, List.getElem?_eq_getElem hm]
  rfl

lemma set_tristate_from_fields : ∀ (l : List OLMC) (g : GAL) (n : Nat) (c : Bool) (i : Nat),
    (set_tristate_from g n c i l).chip = g.chip ∧
    (set_tristate_from g n c i l).fuses = g.fuses ∧
    (set_tristate_from g n c i l).xor = g.xor ∧
    (set_tristate_from g n c i l).sig = g.sig ∧
    (set_tristate_from g n c i l).pt = g.pt ∧
    (set_tristate_from g n c i l).syn = g.syn ∧
    (set_tristate_from g n c i l).ac0 = g.ac0 ∧
    (set_tristate_from g n c i l).ac1.length = g.ac1.length := by
  intro l
  induction l with
  | nil => intro g n c i; exact ⟨rfl, rfl, rfl, rfl, rfl, rfl, rfl, rfl⟩
  | cons olmc rest ih =>
    intro g n c i
    have hstep : set_tristate_from g n c i (olmc :: rest) =
        set_tristate_from (if is_tristate olmc c then
          { g with ac1 := g.ac1.set (n - 1 - i) true } else g) n c (i + 1) rest := rfl
    rw [hstep]
    split
    · obtain ⟨h1, h2, h3, h4, h5, h6, h7, h8⟩ :=
        ih { g with ac1 := g.ac1.set (n - 1 - i) true } n c (i + 1)
      exact ⟨h1, h2, h3, h4, h5, h6, h7, by rw [h8]; simp⟩
    · exact ih g n c (i + 1)

lemma set_tristate_from_untouched : ∀ (l : List OLMC) (g : GAL) (n : Nat) (c : Bool)
    (i k : Nat), (∀ j, j < l.length → k ≠ n - 1 - (i + j)) →
    (set_tristate_from g n c i l).ac1[k]? = g.ac1[k]? := by
  intro l
  induction l with
  | nil => intro g n c i k _; rfl
  | cons olmc rest ih =>
    intro g n c i k hk
    have hstep : set_tristate_from g n c i (olmc :: rest) =
        set_tristate_from (if is_tristate olmc c then
          { g with ac1 := g.ac1.set (n - 1 - i) true } else g) n c (i + 1) rest := rfl
    rw [hstep]
    have hrest : ∀ j, j < rest.length → k ≠ n - 1 - (i + 1 + j) := by
      intro j hj
      have h2 := hk (j + 1) (by simp only [List.length_cons]; omega)
      have heq : n - 1 - (i + 1 + j) = n - 1 - (i + (j + 1)) := by omega
      rw [heq]
      exact h2
    have hhead := hk 0 (by simp only [List.length_cons]; omega)
    split
    · rw [ih _ n c (i + 1) k hrest]
      exact List.getElem?_set_ne (by omega)
    · exact ih g n c (i + 1) k hrest

lemma set_tristate_from_touched : ∀ (l : List OLMC) (g : GAL) (n : Nat) (c : Bool)
    (i j : Nat) (olmc : OLMC), l[j]? = some olmc → i + l.length ≤ n → n ≤ g.ac1.length →
    (set_tristate_from g n c i l).ac1[n - 1 - (i + j)]? =
      some (g.ac1.getD (n - 1 - (i + j)) false || is_tristate olmc c) := by
  intro l
  induction l with
  | nil => intro g n c i j olmc hj _ _; cases hj
  | cons olmc0 rest ih =>
    intro g n c i j olmc hj hlen hsz
    simp only [List.length_cons] at hlen
    have hstep : set_tristate_from g n c i (olmc0 :: rest) =
        set_tristate_from (if is_tristate olmc0 c then
          { g with ac1 := g.ac1.set (n - 1 - i) true } else g) n c (i + 1) rest := rfl
    rw [hstep]
    cases j with
    | zero =>
      rw [List.getElem?_cons_zero, Option.some_inj] at hj
      have hm : n - 1 - (i + 0) < g.ac1.length := by omega
      have hrest : ∀ j, j < rest.length → n - 1 - (i + 0) ≠ n - 1 - (i + 1 + j) := by
        intro j hj2
        omega
      split
      · rename_i hc
        rw [set_tristate_from_untouched rest _ n c (i + 1) _ hrest]
        have hidx : n - 1 - (i + 0) = n - 1 - i := by omega
        show (g.ac1.set (n - 1 - i) true)[n - 1 - (i + 0)]? = _
        rw [hidx, List.getElem?_set_self (by omega), ← hj, hc, Bool.or_true]
      · rename_i hc
        rw [set_tristate_from_untouched rest g n c (i + 1) _ hrest]
        rw [← hj, Bool.eq_false_iff.mpr hc, Bool.or_false]
        exact getD_of_getElem? hm
    | succ j0 =>
      rw [List.getElem?_cons_succ] at hj
      have hj0 : j0 < rest.length := by
        by_contra hcon
        rw [List.getElem?_eq_none (by omega)] at hj
        cases hj
      have heq : n - 1 - (i + (j0 + 1)) = n - 1 - (i + 1 + j0) := by omega
      rw [heq]
      split
      · rename_i hc
        have hsz2 : n ≤ (g.ac1.set (n - 1 - i) true).length := by
          rw [List.length_set]
          exact hsz
        rw [ih { g with ac1 := g.ac1.set (n - 1 - i) true } n c (i + 1) j0 olmc hj
          (by omega) hsz2]
        have hgd : (g.ac1.set (n - 1 - i) true).getD (n - 1 - (i + 1 + j0)) false =
            g.ac1.getD (n - 1 - (i + 1 + j0)) false := by
          rw [List.getD_eq_getElem?_getD, List.getD_eq_getElem?_getD]
          rw [List.getElem?_set_ne (by omega)]
        show some ((g.ac1.set (n - 1 - i) true).getD (n - 1 - (i + 1 + j0)) false
          || is_tristate olmc c) = _
        rw [hgd]
      · exact ih g n c (i + 1) j0 olmc hj (by omega) hsz

lemma set_xors_from_fields : ∀ (l : List OLMC) (g : GAL) (n : Nat) (i : Nat),
    (set_xors_from g n i l).chip = g.chip ∧
    (set_xors_from g n i l).fuses = g.fuses ∧
    (set_xors_from g n i l).ac1 = g.ac1 ∧
    (set_xors_from g n i l).sig = g.sig ∧
    (set_xors_from g n i l).pt = g.pt ∧
    (set_xors_from g n i l).syn = g.syn ∧
    (set_xors_from g n i l).ac0 = g.ac0 ∧
    (set_xors_from g n i l).xor.length = g.xor.length := by
  intro l
  induction l with
  | nil => intro g n i; exact ⟨rfl, rfl, rfl, rfl, rfl, rfl, rfl, rfl⟩
  | cons olmc rest ih =>
    intro g n i
    have hstep : set_xors_from g n i (olmc :: rest) =
        set_xors_from (if olmc.output.isSome && (olmc.active == Active.High) then
          { g with xor := g.xor.set (n - 1 - i) true } else g) n (i + 1) rest := rfl
    rw [hstep]
    split
    · obtain ⟨h1, h2, h3, h4, h5, h6, h7, h8⟩ :=
        ih { g with xor := g.xor.set (n - 1 - i) true } n (i + 1)
      exact ⟨h1, h2, h3, h4, h5, h6, h7, by rw [h8]; simp⟩
    · exact ih g n (i + 1)

lemma set_xors_from_untouched : ∀ (l : List OLMC) (g : GAL) (n : Nat)
    (i k : Nat), (∀ j, j < l.length → k ≠ n - 1 - (i + j)) →
    (set_xors_from g n i l).xor[k]? = g.xor[k]? := by
  intro l
  induction l with
  | nil => intro g n i k _; rfl
  | cons olmc rest ih =>
    intro g n i k hk
    have hstep : set_xors_from g n i (olmc :: rest) =
        set_xors_from (if olmc.output.isSome && (olmc.active == Active.High) then
          { g with xor := g.xor.set (n - 1 - i) true } else g) n (i + 1) rest := rfl
    rw [hstep]
    have hrest : ∀ j, j < rest.length → k ≠ n - 1 - (i + 1 + j) := by
      intro j hj
      have h2 := hk (j + 1) (by simp only [List.length_cons]; omega)
      have heq : n - 1 - (i + 1 + j) = n - 1 - (i + (j + 1)) := by omega
      rw [heq]
      exact h2
    have hhead := hk 0 (by simp only [List.length_cons]; omega)
    split
    · rw [ih _ n (i + 1) k hrest]
      exact List.getElem?_set_ne (by omega)
    · exact ih g n (i + 1) k hrest

lemma set_xors_from_touched : ∀ (l : List OLMC) (g : GAL) (n : Nat)
    (i j : Nat) (olmc : OLMC), l[j]? = some olmc → i + l.length ≤ n → n ≤ g.xor.length →
    (set_xors_from g n i l).xor[n - 1 - (i + j)]? =
      some (g.xor.getD (n - 1 - (i + j)) false ||
        (olmc.output.isSome && (olmc.active == Active.High))) := by
  intro l
  induction l with
  | nil => intro g n i j olmc hj _ _; cases hj
  | cons olmc0 rest ih =>
    intro g n i j olmc hj hlen hsz
    simp only [List.length_cons] at hlen
    have hstep : set_xors_from g n i (olmc0 :: rest) =
        set_xors_from (if olmc0.output.isSome && (olmc0.active == Active.High) then
          { g with xor := g.xor.set (n - 1 - i) true } else g) n (i + 1) rest := rfl
    rw [hstep]
    cases j with
    | zero =>
      rw [List.getElem?_cons_zero, Option.some_inj] at hj
      have hm : n - 1 - (i + 0) < g.xor.length := by omega
      have hrest : ∀ j, j < rest.length → n - 1 - (i + 0) ≠ n - 1 - (i + 1 + j) := by
        intro j hj2
        omega
      split
      · rename_i hc
        rw [set_xors_from_untouched rest _ n (i + 1) _ hrest]
        have hidx : n - 1 - (i + 0) = n - 1 - i := by omega
        show (g.xor.set (n - 1 - i) true)[n - 1 - (i + 0)]? = _
        rw [hidx, List.getElem?_set_self (by omega), ← hj, hc, Bool.or_true]
      · rename_i hc
        rw [set_xors_from_untouched rest g n (i + 1) _ hrest]
        rw [← hj, Bool.eq_false_iff.mpr hc, Bool.or_false]
        exact getD_of_getElem? hm
    | succ j0 =>
      rw [List.getElem?_cons_succ] at hj
      have hj0 : j0 < rest.length := by
        by_contra hcon
        rw [List.getElem?_eq_none (by omega)] at hj
        cases hj
      have heq : n - 1 - (i + (j0 + 1)) = n - 1 - (i + 1 + j0) := by omega
      rw [heq]
      split
      · rename_i hc
        have hsz2 : n ≤ (g.xor.set (n - 1 - i) true).length := by
          rw [List.length_set]
          exact hsz
        rw [ih { g with xor := g.xor.set (n - 1 - i) true } n (i + 1) j0 olmc hj
          (by omega) hsz2]
        have hgd : (g.xor.set (n - 1 - i) true).getD (n - 1 - (i + 1 + j0)) false =
            g.xor.getD (n - 1 - (i + 1 + j0)) false := by
          rw [List.getD_eq_getElem?_getD, List.getD_eq_getElem?_getD]
          rw [List.getElem?_set_ne (by omega)]
        show some ((g.xor.set (n - 1 - i) true).getD (n - 1 - (i + 1 + j0)) false
          || (olmc.output.isSome && (olmc.active == Active.High))) = _
        rw [hgd]
      · exact ih g n (i + 1) j0 olmc hj (by omega) hsz

/-- C9 witness: pin 1 of the GAL22V10 resolves (to column 0). -/
theorem pin_to_column_total_witness :
    (1 ≤ 1 ∧ 1 ≤ (GAL.new Chip.GAL22V10).chip.num_pins ∧
      ((GAL.new Chip.GAL22V10).chip = Chip.GAL16V8 ∨
        (GAL.new Chip.GAL22V10).chip = Chip.GAL20V8 →
        (GAL.new Chip.GAL22V10).get_mode ≠ none)) ∧
    ∃ r, (GAL.new Chip.GAL22V10).pin_to_column 1 = some r ∧
      named_result (GAL.new Chip.GAL22V10).chip.num_cols r = true :=
  ⟨⟨by decide, by decide, by decide⟩,
    pin_to_column_total (GAL.new Chip.GAL22V10) 1 (by decide) (by decide) (by decide)⟩

lemma add_term_loop_fields (groups : List (List Pin)) (g : GAL) (line total : Nat)
    (single : Bool) (b : Bounds) (g1 : GAL) (r : Except Error Bounds)
    (h : g.add_term_loop line total single b groups = some (g1, r)) :
    eq_but_fuses g1 g ∧ g1.fuses.length = g.fuses.length := by
  induction groups generalizing g b g1 r with
  | nil =>
    unfold GAL.add_term_loop at h
    simp only [Option.some_inj, Prod.mk.injEq] at h
    rw [← h.1]
    exact ⟨eq_but_fuses_refl g, rfl⟩
  | cons row rest ih =>
    unfold GAL.add_term_loop at h
    split at h
    · simp only [Option.some_inj, Prod.mk.injEq] at h
      rw [← h.1]
      exact ⟨eq_but_fuses_refl g, rfl⟩
    · split at h
      · cases h
      · rename_i ga e hrow
        obtain ⟨hfe, hlen, -⟩ := add_row_cases row g line _ ga _ hrow
        simp only [Option.some_inj, Prod.mk.injEq] at h
        rw [← h.1]
        exact ⟨hfe, hlen⟩
      · rename_i ga u hrow
        obtain ⟨hfe, hlen, -⟩ := add_row_cases row g line _ ga _ hrow
        obtain ⟨hfe2, hlen2⟩ := ih ga { b with row_offset := b.row_offset + 1 } g1 r h
        exact ⟨eq_but_fuses_trans hfe2 hfe, hlen2.trans hlen⟩

lemma add_term_fields (g : GAL) (t : Term) (b : Bounds) (g1 : GAL)
    (r : Except Error Unit) (h : g.add_term t b = some (g1, r)) :
    eq_but_fuses g1 g ∧ g1.fuses.length = g.fuses.length := by
  unfold GAL.add_term at h
  split at h
  · cases h
  · rename_i ga e hl
    obtain ⟨hfe, hlen⟩ := add_term_loop_fields t.pins g _ _ _ b ga _ hl
    simp only [Option.some_inj, Prod.mk.injEq] at h
    rw [← h.1]
    exact ⟨hfe, hlen⟩
  · rename_i ga b1 hl
    obtain ⟨hfe, hlen⟩ := add_term_loop_fields t.pins g _ _ _ b ga _ hl
    split at h
    · cases h
    · rename_i g2 hc
      obtain ⟨hfe2, hlen2, -, -⟩ := clear_rows_cases ga b1 g2 hc
      simp only [Option.some_inj, Prod.mk.injEq] at h
      rw [← h.1]
      exact ⟨eq_but_fuses_trans hfe2 hfe, hlen2.trans hlen⟩

lemma add_term_opt_fields (g : GAL) (t : Option Term) (b : Bounds) (g1 : GAL)
    (r : Except Error Unit) (h : g.add_term_opt t b = some (g1, r)) :
    eq_but_fuses g1 g ∧ g1.fuses.length = g.fuses.length := by
  cases t with
  | some t => exact add_term_fields g t b g1 r h
  | none => exact add_term_fields g (false_term 0) b g1 r h

lemma set_core_eqns_from_fields : ∀ (l : List OLMC) (g : GAL) (i : Nat) (g1 : GAL)
    (r : Except Error Unit), set_core_eqns_from g i l = some (g1, r) →
    eq_but_fuses g1 g ∧ g1.fuses.length = g.fuses.length := by
  intro l
  induction l with
  | nil =>
    intro g i g1 r h
    unfold set_core_eqns_from at h
    simp only [Option.some_inj, Prod.mk.injEq] at h
    rw [← h.1]
    exact ⟨eq_but_fuses_refl g, rfl⟩
  | cons olmc rest ih =>
    intro g i g1 r h
    unfold set_core_eqns_from at h
    split at h
    · cases h
    · rename_i ga e hstep
      have hga : eq_but_fuses ga g ∧ ga.fuses.length = g.fuses.length := by
        split at hstep
        · rename_i pm term hout
          split at hstep
          · cases hstep
          · rename_i badj
            exact add_term_fields g term _ ga _ hstep
        · exact add_term_fields g (false_term 0) _ ga _ hstep
      simp only [Option.some_inj, Prod.mk.injEq] at h
      rw [← h.1]
      exact hga
    · rename_i ga u hstep
      have hga : eq_but_fuses ga g ∧ ga.fuses.length = g.fuses.length := by
        split at hstep
        · rename_i pm term hout
          split at hstep
          · cases hstep
          · rename_i badj
            exact add_term_fields g term _ ga _ hstep
        · exact add_term_fields g (false_term 0) _ ga _ hstep
      split at h
      · obtain ⟨hfe2, hlen2⟩ := ih ga (i + 1) g1 r h
        exact ⟨eq_but_fuses_trans hfe2 hga.1, hlen2.trans hga.2⟩
      · split at h
        · simp only [Option.some_inj, Prod.mk.injEq] at h
          rw [← h.1]
          exact hga
        · split at h
          · cases h
          · rename_i g2 e2 htri
            obtain ⟨hfe3, hlen3⟩ := add_term_fields ga _ _ g2 _ htri
            simp only [Option.some_inj, Prod.mk.injEq] at h
            rw [← h.1]
            exact ⟨eq_but_fuses_trans hfe3 hga.1, hlen3.trans hga.2⟩
          · rename_i g2 u2 htri
            obtain ⟨hfe3, hlen3⟩ := add_term_fields ga _ _ g2 _ htri
            obtain ⟨hfe4, hlen4⟩ := ih g2 (i + 1) g1 r h
            exact ⟨eq_but_fuses_trans hfe4 (eq_but_fuses_trans hfe3 hga.1),
              (hlen4.trans hlen3).trans hga.2⟩

lemma set_sig_bits_fields : ∀ (m : Nat) (g : GAL) (i c : Nat),
    (set_sig_bits g i c m).chip = g.chip ∧
    (set_sig_bits g i c m).fuses = g.fuses ∧
    (set_sig_bits g i c m).xor = g.xor ∧
    (set_sig_bits g i c m).ac1 = g.ac1 ∧
    (set_sig_bits g i c m).pt = g.pt ∧
    (set_sig_bits g i c m).syn = g.syn ∧
    (set_sig_bits g i c m).ac0 = g.ac0 := by
  intro m
  induction m with
  | zero => intro g i c; exact ⟨rfl, rfl, rfl, rfl, rfl, rfl, rfl⟩
  | succ m ih =>
    intro g i c
    obtain ⟨h1, h2, h3, h4, h5, h6, h7⟩ := ih g i c
    exact ⟨h1, h2, h3, h4, h5, h6, h7⟩

lemma set_sig_bits_frame : ∀ (m : Nat) (g : GAL) (i c k : Nat),
    (k < i * 8 ∨ i * 8 + m ≤ k) →
    (set_sig_bits g i c m).sig[k]? = g.sig[k]? := by
  intro m
  induction m with
  | zero => intro g i c k _; rfl
  | succ m ih =>
    intro g i c k hk
    show ((set_sig_bits g i c m).sig.set (i * 8 + m) (sig_bit c m))[k]? = _
    rw [List.getElem?_set_ne (by omega)]
    exact ih g i c k (by omega)

lemma set_sig_from_fields : ∀ (m : Nat) (g : GAL) (bp : Blueprint),
    (set_sig_from g bp m).chip = g.chip ∧
    (set_sig_from g bp m).fuses = g.fuses ∧
    (set_sig_from g bp m).xor = g.xor ∧
    (set_sig_from g bp m).ac1 = g.ac1 ∧
    (set_sig_from g bp m).pt = g.pt ∧
    (set_sig_from g bp m).syn = g.syn ∧
    (set_sig_from g bp m).ac0 = g.ac0 := by
  intro m
  induction m with
  | zero => intro g bp; exact ⟨rfl, rfl, rfl, rfl, rfl, rfl, rfl⟩
  | succ m ih =>
    intro g bp
    obtain ⟨h1, h2, h3, h4, h5, h6, h7⟩ := ih g bp
    obtain ⟨j1, j2, j3, j4, j5, j6, j7⟩ :=
      set_sig_bits_fields 8 (set_sig_from g bp m) m (bp.sig.getD m 0)
    exact ⟨j1.trans h1, j2.trans h2, j3.trans h3, j4.trans h4, j5.trans h5,
      j6.trans h6, j7.trans h7⟩

lemma set_sig_from_frame : ∀ (m : Nat) (g : GAL) (bp : Blueprint) (k : Nat),
    8 * m ≤ k → (set_sig_from g bp m).sig[k]? = g.sig[k]? := by
  intro m
  induction m with
  | zero => intro g bp k _; rfl
  | succ m ih =>
    intro g bp k hk
    show (set_sig_bits (set_sig_from g bp m) m (bp.sig.getD m 0) 8).sig[k]? = _
    rw [set_sig_bits_frame 8 _ m _ k (by omega)]
    exact ih g bp k (by omega)

lemma set_sig_fields (g : GAL) (bp : Blueprint) :
    (set_sig g bp).chip = g.chip ∧
    (set_sig g bp).fuses = g.fuses ∧
    (set_sig g bp).xor = g.xor ∧
    (set_sig g bp).ac1 = g.ac1 ∧
    (set_sig g bp).pt = g.pt ∧
    (set_sig g bp).syn = g.syn ∧
    (set_sig g bp).ac0 = g.ac0 :=
  set_sig_from_fields (min bp.sig.length 8) g bp

lemma set_sig_frame (g : GAL) (bp : Blueprint) (k : Nat)
    (hk : 8 * min bp.sig.length 8 ≤ k) :
    (set_sig g bp).sig[k]? = g.sig[k]? :=
  set_sig_from_frame (min bp.sig.length 8) g bp k hk

lemma set_mode_some (g : GAL) (m : Mode) (g2 : GAL) (h : g.set_mode m = some g2) :
    g2.chip = g.chip ∧ g2.fuses = g.fuses ∧ g2.xor = g.xor ∧ g2.sig = g.sig ∧
    g2.ac1 = g.ac1 ∧ g2.pt = g.pt ∧ g2.get_mode = some m := by
  unfold GAL.set_mode at h
  split at h
  · rename_i hchip
    have hg := Option.some.inj h
    cases m <;> rw [← hg] <;>
      exact ⟨rfl, rfl, rfl, rfl, rfl, rfl, by unfold GAL.get_mode; rw [if_pos hchip]⟩
  · cases h

lemma set_pts_fields (g : GAL) :
    (set_pts g).chip = g.chip ∧ (set_pts g).fuses = g.fuses ∧ (set_pts g).xor = g.xor ∧
    (set_pts g).sig = g.sig ∧ (set_pts g).ac1 = g.ac1 ∧ (set_pts g).syn = g.syn ∧
    (set_pts g).ac0 = g.ac0 :=
  ⟨rfl, rfl, rfl, rfl, rfl, rfl, rfl⟩

lemma claim_tristate_cond_eq (olmc : OLMC) (m : Mode) :
    claim_tristate_cond olmc m = is_tristate olmc (m != Mode.Simple) := by
  cases holmc : olmc.output with
  | none =>
    simp [claim_tristate_cond, is_tristate, is_tristate_output,
      is_combinatorial_output, holmc]
  | some pt =>
    obtain ⟨pm, t⟩ := pt
    cases pm <;>
      simp [claim_tristate_cond, is_tristate, is_tristate_output,
        is_combinatorial_output, holmc]

lemma claim_tristate_cond_registered (olmc : OLMC) (m : Mode)
    (h : is_registered_output olmc = true) : claim_tristate_cond olmc m = false := by
  unfold is_registered_output at h
  cases holmc : olmc.output with
  | none => rw [holmc] at h; cases h
  | some pt =>
    obtain ⟨pm, t⟩ := pt
    rw [holmc] at h
    cases pm
    · cases h
    · cases h
    · simp [claim_tristate_cond, is_tristate_output, is_combinatorial_output, holmc]

lemma getD_replicate_false (n k : Nat) : (List.replicate n false).getD k false = false := by
  rw [List.getD_eq_getElem?_getD, List.getElem?_replicate]
  split <;> rfl

lemma analyse_mode_length (olmcs : List OLMC) (m : Mode)
    (h : analyse_mode olmcs = some m) : olmcs.length = 8 := by
  unfold analyse_mode at h
  split at h
  · assumption
  · cases h

lemma build_eq_galxv8 (bp : Blueprint)
    (hchip : bp.chip = Chip.GAL16V8 ∨ bp.chip = Chip.GAL20V8) :
    build bp = build_galxv8 (GAL.new bp.chip) bp := by
  unfold build
  rcases hchip with h | h <;> rw [h]

/-- C6: in every GALxV8 build, each OLMC's tristate-enable (ac1) bit
ends true exactly when: the OLMC has no output but its feedback is used;
or its output is Tristate; or its output is Combinatorial and the
inferred Mode is not Simple; and it ends false when the output is
Registered (so with one Registered output, the remaining Combinatorial
outputs still get their tristate-enable bits set, forced by
Mode ≠ Simple). -/
theorem build_galxv8_tristate_bits (bp : Blueprint) (m : Mode)
    (hchip : bp.chip = Chip.GAL16V8 ∨ bp.chip = Chip.GAL20V8)
    (hmode : analyse_mode bp.olmcs = some m) :
    ∀ i olmc, bp.olmcs[i]? = some olmc →
    ∀ g2, build bp = some (g2, .ok ()) →
      g2.ac1[bp.olmcs.length - 1 - i]? = some (claim_tristate_cond olmc m) ∧
      (is_registered_output olmc = true →
        g2.ac1[bp.olmcs.length - 1 - i]? = some false) := by
  intro i olmc holmc g2 hbuild
  have h8 : bp.olmcs.length = 8 := analyse_mode_length bp.olmcs m hmode
  have hn8 : bp.chip.num_olmcs = 8 := by
    rcases hchip with h | h <;> rw [h] <;> rfl
  rw [build_eq_galxv8 bp hchip] at hbuild
  unfold build_galxv8 at hbuild
  split at hbuild
  · simp at hbuild
  · split at hbuild
    · cases hbuild
    · rename_i gm hsm
      split at hbuild
      · cases hbuild
      · rename_i m2 hgm
        split at hbuild
        · cases hbuild
        · simp at hbuild
        · rename_i g5 u hcore
          simp only [Option.some_inj, Prod.mk.injEq] at hbuild
          obtain ⟨hg2, -⟩ := hbuild
          unfold set_mode_step at hsm
          split at hsm
          · cases hsm
          · rename_i m0 ham
            have hm0 : m0 = m := by
              have := ham.symm.trans hmode
              exact Option.some.inj this
            subst hm0
            obtain ⟨-, -, -, -, hac1gm, -, hgmmode⟩ :=
              set_mode_some (set_sig (GAL.new bp.chip) bp) m0 gm hsm
            have hm2 : m2 = m0 := Option.some.inj (hgm.symm.trans hgmmode)
            subst hm2
            unfold set_core_eqns at hcore
            obtain ⟨hfe5, -⟩ := set_core_eqns_from_fields bp.olmcs _ 0 g5 _ hcore
            have hac1 : g2.ac1 =
                (set_tristate gm bp (m2 != Mode.Simple)).ac1 := by
              rw [← hg2]
              have h1 : (set_pts g5).ac1 = g5.ac1 := rfl
              rw [h1, hfe5.2.2.2.1]
              exact (set_xors_from_fields bp.olmcs _ bp.olmcs.length 0).2.2.1
            have hlen : bp.olmcs.length ≤ gm.ac1.length := by
              rw [hac1gm, (set_sig_fields (GAL.new bp.chip) bp).2.2.2.1]
              show bp.olmcs.length ≤ (List.replicate bp.chip.num_olmcs false).length
              rw [List.length_replicate, hn8, h8]
            have htouch := set_tristate_from_touched bp.olmcs gm bp.olmcs.length
              (m2 != Mode.Simple) 0 i olmc holmc (by omega) hlen
            rw [Nat.zero_add] at htouch
            have hgd : gm.ac1.getD (bp.olmcs.length - 1 - i) false = false := by
              rw [hac1gm, (set_sig_fields (GAL.new bp.chip) bp).2.2.2.1]
              show (List.replicate bp.chip.num_olmcs false).getD _ false = false
              exact getD_replicate_false _ _
            rw [hgd, Bool.false_or] at htouch
            have hmain : g2.ac1[bp.olmcs.length - 1 - i]? =
                some (claim_tristate_cond olmc m2) := by
              rw [hac1, claim_tristate_cond_eq]
              exact htouch
            refine ⟨hmain, fun hreg => ?_⟩
            rw [hmain, claim_tristate_cond_registered olmc m2 hreg]

/-- C6 witness: the characterization applied to an 8-OLMC GAL16V8
blueprint with one Registered output and seven Combinatorial outputs
(whose inferred mode is Registered). -/
theorem build_galxv8_tristate_bits_witness :
    (bp_reg7c.chip = Chip.GAL16V8 ∨ bp_reg7c.chip = Chip.GAL20V8) ∧
    analyse_mode bp_reg7c.olmcs = some Mode.Registered ∧
    (∀ i olmc, bp_reg7c.olmcs[i]? = some olmc →
      ∀ g2, build bp_reg7c = some (g2, .ok ()) →
        g2.ac1[bp_reg7c.olmcs.length - 1 - i]? =
          some (claim_tristate_cond olmc Mode.Registered) ∧
        (is_registered_output olmc = true →
          g2.ac1[bp_reg7c.olmcs.length - 1 - i]? = some false)) :=
  ⟨by decide, by decide,
    build_galxv8_tristate_bits bp_reg7c Mode.Registered (by decide) (by decide)⟩

lemma pin_to_olmc_22v10_lt (pin i : Nat)
    (h : Chip.pin_to_olmc Chip.GAL22V10 pin = some i) : i < 10 := by
  have h2 : (if 14 ≤ pin ∧ pin ≤ 23 then some (pin - 14) else none) = some i := h
  split at h2
  · rename_i hrange
    have := Option.some.inj h2
    omega
  · cases h2

lemma registered_high_of_not_tristate (olmc : OLMC) :
    ((! is_tristate olmc true) && (olmc.output.isSome && (olmc.active == Active.High))) =
      (is_registered_output olmc && (olmc.active == Active.High)) := by
  cases holmc : olmc.output with
  | none => simp [is_tristate, is_registered_output, holmc]
  | some pt =>
    obtain ⟨pm, t⟩ := pt
    cases pm <;> simp [is_tristate, is_registered_output, holmc]

lemma needs_flip_22v10 (g : GAL) (pin i : Nat) (hchip : g.chip = Chip.GAL22V10)
    (hpin : Chip.pin_to_olmc Chip.GAL22V10 pin = some i) :
    g.needs_flip pin =
      ((! g.ac1.getD (10 - 1 - i) false) && g.xor.getD (10 - 1 - i) false) := by
  obtain ⟨chip, fuses, xr, sg, a1, pt, sy, a0⟩ := g
  simp only at hchip
  subst hchip
  show (if (Chip.GAL22V10 ≠ Chip.GAL22V10) then false
    else match Chip.pin_to_olmc Chip.GAL22V10 pin with
    | some i =>
      (! a1.getD (Chip.num_olmcs Chip.GAL22V10 - 1 - i) false) &&
        xr.getD (Chip.num_olmcs Chip.GAL22V10 - 1 - i) false
    | none => false) = _
  rw [if_neg (by simp), hpin]
  rfl

/-- C4: `needs_flip` returns false for every device family except the
GAL22V10; on the GAL22V10 it returns false for a pin that maps to no
OLMC, and — in the builder's pre-equation state (signature, tristate and
polarity bits set) — it returns true exactly when the OLMC owning the
pin has a Registered output and is active-high. -/
theorem needs_flip_spec :
    (∀ (g : GAL) (pin : Nat), g.chip ≠ Chip.GAL22V10 → g.needs_flip pin = false) ∧
    (∀ (g : GAL) (pin : Nat), g.chip.pin_to_olmc pin = none → g.needs_flip pin = false) ∧
    (∀ (bp : Blueprint) (pin i : Nat) (olmc : OLMC),
      bp.olmcs.length = 10 →
      Chip.pin_to_olmc Chip.GAL22V10 pin = some i →
      bp.olmcs[i]? = some olmc →
      (set_xors (set_tristate (set_sig (GAL.new Chip.GAL22V10) bp) bp true) bp).needs_flip
        pin = (is_registered_output olmc && (olmc.active == Active.High))) := by
  have h1 : ∀ (g : GAL) (pin : Nat), g.chip ≠ Chip.GAL22V10 → g.needs_flip pin = false := by
    intro g pin h
    unfold GAL.needs_flip
    rw [if_pos h]
  refine ⟨h1, ?_, ?_⟩
  · intro g pin h
    by_cases hc : g.chip ≠ Chip.GAL22V10
    · exact h1 g pin hc
    · unfold GAL.needs_flip
      rw [if_neg hc, h]
  · intro bp pin i olmc h10 hpin holmc
    have hi : i < 10 := pin_to_olmc_22v10_lt pin i hpin
    have hgs := set_sig_fields (GAL.new Chip.GAL22V10) bp
    have hsig_ac1 : (set_sig (GAL.new Chip.GAL22V10) bp).ac1 = List.replicate 10 false := by
      rw [hgs.2.2.2.1]
      rfl
    have hsig_xor : (set_sig (GAL.new Chip.GAL22V10) bp).xor = List.replicate 10 false := by
      rw [hgs.2.2.1]
      rfl
    show (set_xors_from (set_tristate_from (set_sig (GAL.new Chip.GAL22V10) bp)
        bp.olmcs.length true 0 bp.olmcs) bp.olmcs.length 0 bp.olmcs).needs_flip pin =
      (is_registered_output olmc && (olmc.active == Active.High))
    rw [h10]
    have hts := set_tristate_from_fields bp.olmcs (set_sig (GAL.new Chip.GAL22V10) bp)
      10 true 0
    have hxs := set_xors_from_fields bp.olmcs
      (set_tristate_from (set_sig (GAL.new Chip.GAL22V10) bp) 10 true 0 bp.olmcs) 10 0
    have hchip : (set_xors_from (set_tristate_from (set_sig (GAL.new Chip.GAL22V10) bp)
        10 true 0 bp.olmcs) 10 0 bp.olmcs).chip = Chip.GAL22V10 := by
      rw [hxs.1, hts.1, hgs.1]
      rfl
    have htouch_ac1 := set_tristate_from_touched bp.olmcs
      (set_sig (GAL.new Chip.GAL22V10) bp) 10 true 0 i olmc holmc (by omega)
      (by rw [hsig_ac1]; simp)
    rw [Nat.zero_add, hsig_ac1, getD_replicate_false, Bool.false_or] at htouch_ac1
    have hac1 : (set_xors_from (set_tristate_from (set_sig (GAL.new Chip.GAL22V10) bp)
        10 true 0 bp.olmcs) 10 0 bp.olmcs).ac1[10 - 1 - i]? =
        some (is_tristate olmc true) := by
      rw [hxs.2.2.1]
      exact htouch_ac1
    have hts_xor : (set_tristate_from (set_sig (GAL.new Chip.GAL22V10) bp)
        10 true 0 bp.olmcs).xor = List.replicate 10 false := by
      rw [hts.2.2.1, hsig_xor]
    have htouch_xor := set_xors_from_touched bp.olmcs
      (set_tristate_from (set_sig (GAL.new Chip.GAL22V10) bp) 10 true 0 bp.olmcs) 10
      0 i olmc holmc (by omega) (by rw [hts_xor]; simp)
    rw [Nat.zero_add, hts_xor, getD_replicate_false, Bool.false_or] at htouch_xor
    rw [needs_flip_22v10 _ pin i hchip hpin]
    rw [List.getD_eq_getElem?_getD, List.getD_eq_getElem?_getD, hac1, htouch_xor]
    exact registered_high_of_not_tristate olmc

/-- C4 witness: on a GAL22V10 blueprint whose OLMC 0 (pin 14) is a
Registered active-low output, the flip test applied at pins 14 (owning
OLMC 0), and the family/no-OLMC cases at a GAL16V8 state and pin 2. -/
theorem needs_flip_spec_witness :
    ((GAL.new Chip.GAL16V8).chip ≠ Chip.GAL22V10 ∧
      (GAL.new Chip.GAL22V10).chip.pin_to_olmc 2 = none ∧
      (olmc_out PinMode.Registered :: List.replicate 9 (olmc_out PinMode.Combinatorial)).length
        = 10 ∧
      Chip.pin_to_olmc Chip.GAL22V10 14 = some 0 ∧
      (olmc_out PinMode.Registered ::
        List.replicate 9 (olmc_out PinMode.Combinatorial))[0]? =
        some (olmc_out PinMode.Registered)) ∧
    (GAL.new Chip.GAL16V8).needs_flip 2 = false ∧
    (GAL.new Chip.GAL22V10).needs_flip 2 = false ∧
    (set_xors (set_tristate (set_sig (GAL.new Chip.GAL22V10)
        { chip := Chip.GAL22V10, sig := [], olmcs := olmc_out PinMode.Registered :: List.replicate 9 (olmc_out PinMode.Combinatorial), ar := none, sp := none })
        { chip := Chip.GAL22V10, sig := [], olmcs := olmc_out PinMode.Registered :: List.replicate 9 (olmc_out PinMode.Combinatorial), ar := none, sp := none } true)
        { chip := Chip.GAL22V10, sig := [], olmcs := olmc_out PinMode.Registered :: List.replicate 9 (olmc_out PinMode.Combinatorial), ar := none, sp := none }).needs_flip 14 =
      (is_registered_output (olmc_out PinMode.Registered) &&
        (olmc_out PinMode.Registered).active == Active.High) :=
  ⟨⟨by decide, by decide, by decide, by decide, by decide⟩,
    needs_flip_spec.1 (GAL.new Chip.GAL16V8) 2 (by decide),
    needs_flip_spec.2.1 (GAL.new Chip.GAL22V10) 2 (by decide),
    needs_flip_spec.2.2
      { chip := Chip.GAL22V10, sig := [], olmcs := olmc_out PinMode.Registered :: List.replicate 9 (olmc_out PinMode.Combinatorial), ar := none, sp := none }
      14 0 (olmc_out PinMode.Registered) (by decide) (by decide) (by decide)⟩

lemma add_false_term_ok (g : GAL) (L : Nat) (b : Bounds)
    (hfit : (b.start_row + b.max_row) * g.chip.num_cols ≤ g.fuses.length) :
    ∃ g1, g.add_term (false_term L) b = some (g1, .ok ()) := by
  obtain ⟨g1, hg1⟩ := clear_rows_fits g b hfit
  exact ⟨g1, add_term_of_loop_ok g (false_term L) b g b g1
    (add_term_empty_loop g L b _ 0) hg1⟩

lemma set_aux_eqns_from_reg_noclk (g : GAL) (i : Nat) (rest : List OLMC)
    (act : Active) (tri : Option Term) (fb : Bool) (t0 : Term) (ga gb : GAL)
    (ha : g.add_term_opt none
      { g.chip.get_bounds i with row_offset := 2, max_row := 3 } = some (ga, .ok ()))
    (hb : ga.add_term_opt none
      { g.chip.get_bounds i with row_offset := 3, max_row := 4 } = some (gb, .ok ())) :
    set_aux_eqns_from g i
        ((⟨some (.Registered, t0), act, tri, none, none, none, fb⟩ : OLMC) :: rest) =
      some (gb, .error ⟨t0.line_num, .NoCLK⟩) := by
  simp only [set_aux_eqns_from, check_aux, ha, hb, Option.isNone_none, if_true]

/-- C7: in the GAL20RA10 build, a clock/async-reset/async-preset term
supplied on an OLMC with no output fails with `UndefinedOutput` for that
control kind; supplied on an OLMC whose output is not Registered it
fails with `InvalidControl`; and a Registered output with no clock term
fails with `NoCLK` tagged at that output term's source line. -/
theorem gal20ra10_control_checks :
    (∀ (term : Term) (olmc : OLMC) (s : OutputSuffix), olmc.output = none →
      check_aux (some term) olmc s = .error ⟨term.line_num, .UndefinedOutput s⟩) ∧
    (∀ (term : Term) (olmc : OLMC) (s : OutputSuffix) (pm : PinMode) (t0 : Term),
      olmc.output = some (pm, t0) → pm ≠ PinMode.Registered →
      check_aux (some term) olmc s = .error ⟨term.line_num, .InvalidControl s⟩) ∧
    (∀ (g : GAL) (i : Nat) (rest : List OLMC) (act : Active) (tri : Option Term)
       (fb : Bool) (t0 : Term),
      ((g.chip.get_bounds i).start_row + 4) * g.chip.num_cols ≤ g.fuses.length →
      ∃ g2, set_aux_eqns_from g i
          ((⟨some (.Registered, t0), act, tri, none, none, none, fb⟩ : OLMC) :: rest) =
        some (g2, .error ⟨t0.line_num, .NoCLK⟩)) := by
  refine ⟨?_, ?_, ?_⟩
  · intro term olmc s hout
    unfold check_aux
    rw [hout]
  · intro term olmc s pm t0 hout hpm
    unfold check_aux
    rw [hout]
    cases pm
    · rfl
    · rfl
    · exact absurd rfl hpm
  · intro g i rest act tri fb t0 hfit
    have hmul3 : ((g.chip.get_bounds i).start_row + 3) * g.chip.num_cols ≤
        ((g.chip.get_bounds i).start_row + 4) * g.chip.num_cols :=
      Nat.mul_le_mul_right _ (by omega)
    obtain ⟨ga, hga⟩ := add_false_term_ok g 0
      { g.chip.get_bounds i with row_offset := 2, max_row := 3 } (by dsimp only; omega)
    obtain ⟨hfa, hla⟩ := add_term_fields g _ _ ga _ hga
    obtain ⟨gb, hgb⟩ := add_false_term_ok ga 0
      { g.chip.get_bounds i with row_offset := 3, max_row := 4 }
      (by dsimp only; rw [hfa.1, hla]; omega)
    exact ⟨gb, set_aux_eqns_from_reg_noclk g i rest act tri fb t0 ga gb hga hgb⟩

/-- C7 witness: on a fresh GAL20RA10, OLMC 0 with a Registered output and
no clock equation fails NoCLK at the output's line 5; the control checks
on a no-output OLMC and a Combinatorial-output OLMC fail with
UndefinedOutput and InvalidControl at the control term's line 3. -/
theorem gal20ra10_control_checks_witness :
    ((⟨none, .Low, none, none, none, none, true⟩ : OLMC).output = none ∧
      (olmc_out PinMode.Combinatorial).output =
        some (PinMode.Combinatorial, ⟨0, []⟩) ∧
      (((GAL.new Chip.GAL20RA10).chip.get_bounds 0).start_row + 4) *
        (GAL.new Chip.GAL20RA10).chip.num_cols ≤ (GAL.new Chip.GAL20RA10).fuses.length) ∧
    check_aux (some ⟨3, []⟩) ⟨none, .Low, none, none, none, none, true⟩ .CLK =
      .error ⟨3, .UndefinedOutput .CLK⟩ ∧
    check_aux (some ⟨3, []⟩) (olmc_out PinMode.Combinatorial) .ARST =
      .error ⟨3, .InvalidControl .ARST⟩ ∧
    (∃ g2, set_aux_eqns_from (GAL.new Chip.GAL20RA10) 0
        ((⟨some (.Registered, ⟨5, []⟩), .Low, none, none, none, none, false⟩ : OLMC) :: []) =
      some (g2, .error ⟨5, .NoCLK⟩)) :=
  ⟨⟨by decide, by decide, by rw [new_fuses_length]; decide⟩,
    gal20ra10_control_checks.1 ⟨3, []⟩ ⟨none, .Low, none, none, none, none, true⟩ .CLK
      (by decide),
    gal20ra10_control_checks.2.1 ⟨3, []⟩ (olmc_out PinMode.Combinatorial) .ARST
      PinMode.Combinatorial ⟨0, []⟩ (by decide) (by decide),
    gal20ra10_control_checks.2.2 (GAL.new Chip.GAL20RA10) 0 [] .Low none false ⟨5, []⟩
      (by rw [new_fuses_length]; decide)⟩

lemma set_core_eqns_from_tri_undef (g : GAL) (i : Nat) (rest : List OLMC) (act : Active)
    (clk ar ap : Option Term) (fb : Bool) (term : Term) (g1 : GAL)
    (h1 : g.add_term (false_term 0) (g.chip.get_bounds i) = some (g1, .ok ())) :
    set_core_eqns_from g i
        ((⟨none, act, some term, clk, ar, ap, fb⟩ : OLMC) :: rest) =
      some (g1, .error ⟨term.line_num, .UndefinedOutput .E⟩) := by
  simp only [set_core_eqns_from, check_tristate, h1]

/-- C8: a supplied tristate-enable equation on an OLMC with no output
fails with `UndefinedOutput`; on an OLMC with a plain Combinatorial
output it fails with `UnmatchedTristate`; and on an OLMC with a
Registered output it fails with `TristateReg` where forbidden (on the
GAL16V8/GAL20V8); in the build loop the diagnostic is tagged with the
tristate-enable term's line. -/
theorem tristate_checks :
    (∀ (chip : Chip) (olmc : OLMC), olmc.output = none →
      check_tristate chip olmc = .error (.UndefinedOutput .E)) ∧
    (∀ (chip : Chip) (olmc : OLMC) (t : Term),
      olmc.output = some (.Combinatorial, t) →
      check_tristate chip olmc = .error .UnmatchedTristate) ∧
    (∀ (chip : Chip) (olmc : OLMC) (t : Term),
      olmc.output = some (.Registered, t) →
      (chip = Chip.GAL16V8 ∨ chip = Chip.GAL20V8) →
      check_tristate chip olmc = .error .TristateReg) ∧
    (∀ (g : GAL) (i : Nat) (rest : List OLMC) (act : Active) (clk ar ap : Option Term)
       (fb : Bool) (term : Term),
      ((g.chip.get_bounds i).start_row + (g.chip.get_bounds i).max_row) *
        g.chip.num_cols ≤ g.fuses.length →
      ∃ g1, set_core_eqns_from g i
          ((⟨none, act, some term, clk, ar, ap, fb⟩ : OLMC) :: rest) =
        some (g1, .error ⟨term.line_num, .UndefinedOutput .E⟩)) := by
  refine ⟨?_, ?_, ?_, ?_⟩
  · intro chip olmc hout
    unfold check_tristate
    rw [hout]
  · intro chip olmc t hout
    unfold check_tristate
    rw [hout]
  · intro chip olmc t hout hchips
    unfold check_tristate
    rw [hout]
    rw [if_pos hchips]
  · intro g i rest act clk ar ap fb term hfit
    obtain ⟨g1, hg1⟩ := add_false_term_ok g 0 (g.chip.get_bounds i) hfit
    exact ⟨g1, set_core_eqns_from_tri_undef g i rest act clk ar ap fb term g1 hg1⟩

/-- C8 witness: the tristate checks on concrete OLMCs — no output,
Combinatorial output, Registered output on a GAL16V8 — and the tagged
diagnostic from the build loop on a fresh GAL16V8. -/
theorem tristate_checks_witness :
    ((⟨none, .Low, some ⟨4, []⟩, none, none, none, true⟩ : OLMC).output = none ∧
      (olmc_out PinMode.Combinatorial).output = some (PinMode.Combinatorial, ⟨0, []⟩) ∧
      (olmc_out PinMode.Registered).output = some (PinMode.Registered, ⟨0, []⟩) ∧
      (Chip.GAL16V8 = Chip.GAL16V8 ∨ Chip.GAL16V8 = Chip.GAL20V8) ∧
      (((GAL.new Chip.GAL16V8).chip.get_bounds 0).start_row +
        ((GAL.new Chip.GAL16V8).chip.get_bounds 0).max_row) *
        (GAL.new Chip.GAL16V8).chip.num_cols ≤ (GAL.new Chip.GAL16V8).fuses.length) ∧
    check_tristate Chip.GAL20RA10 ⟨none, .Low, some ⟨4, []⟩, none, none, none, true⟩ =
      .error (.UndefinedOutput .E) ∧
    check_tristate Chip.GAL22V10 (olmc_out PinMode.Combinatorial) =
      .error .UnmatchedTristate ∧
    check_tristate Chip.GAL16V8 (olmc_out PinMode.Registered) = .error .TristateReg ∧
    (∃ g1, set_core_eqns_from (GAL.new Chip.GAL16V8) 0
        ((⟨none, .Low, some ⟨4, []⟩, none, none, none, true⟩ : OLMC) :: []) =
      some (g1, .error ⟨4, .UndefinedOutput .E⟩)) :=
  ⟨⟨by decide, by decide, by decide, by decide, by rw [new_fuses_length]; decide⟩,
    tristate_checks.1 Chip.GAL20RA10 ⟨none, .Low, some ⟨4, []⟩, none, none, none, true⟩
      (by decide),
    tristate_checks.2.1 Chip.GAL22V10 (olmc_out PinMode.Combinatorial) ⟨0, []⟩ (by decide),
    tristate_checks.2.2.1 Chip.GAL16V8 (olmc_out PinMode.Registered) ⟨0, []⟩ (by decide)
      (by decide),
    tristate_checks.2.2.2 (GAL.new Chip.GAL16V8) 0 [] .Low none none none true ⟨4, []⟩
      (by rw [new_fuses_length]; decide)⟩

/-- C5 counterexample: the claim says every bit field of a fresh
`GAL::new` state except the mode bits defaults to intact (true), but on
a fresh GAL16V8 the xor, sig, ac1 and pt bits all default to false. -/
theorem gal_new_bits_not_intact :
    (GAL.new Chip.GAL16V8).xor[0]? = some false ∧
    (GAL.new Chip.GAL16V8).xor[0]? ≠ some true ∧
    (GAL.new Chip.GAL16V8).sig[0]? = some false ∧
    (GAL.new Chip.GAL16V8).ac1[0]? = some false ∧
    (GAL.new Chip.GAL16V8).pt[0]? = some false := by
  refine ⟨?_, ?_, ?_, ?_, ?_⟩ <;> decide

/-- C5 (amended): in a freshly created fuse state (`GAL::new`) the main
fuse array defaults to intact (true), while the xor, sig, ac1 and pt bit
fields and the two mode bits syn and ac0 all default to false; and after
signature expansion, signature bits beyond the supplied bytes remain at
their false default. -/
theorem gal_new_defaults (c : Chip) :
    (GAL.new c).fuses = List.replicate c.logic_size true ∧
    (GAL.new c).xor = List.replicate c.num_olmcs false ∧
    (GAL.new c).sig = List.replicate 64 false ∧
    (GAL.new c).ac1 = List.replicate c.num_olmcs false ∧
    (GAL.new c).pt = List.replicate 64 false ∧
    (GAL.new c).syn = false ∧ (GAL.new c).ac0 = false ∧
    ∀ (bp : Blueprint) (k : Nat), 8 * min bp.sig.length 8 ≤ k → k < 64 →
      (set_sig (GAL.new c) bp).sig[k]? = some false := by
  refine ⟨rfl, rfl, rfl, rfl, rfl, rfl, rfl, ?_⟩
  intro bp k hk h64
  rw [set_sig_frame (GAL.new c) bp k hk]
  show (List.replicate 64 false)[k]? = some false
  rw [List.getElem?_replicate, if_pos h64]

/-- C5 witness: on a GAL16V8 with a one-byte signature, signature bit 63
stays false after expansion. -/
theorem gal_new_defaults_witness :
    (8 * min ([65] : List Nat).length 8 ≤ 63 ∧ 63 < 64) ∧
    (set_sig (GAL.new Chip.GAL16V8)
      { chip := Chip.GAL16V8, sig := [65], olmcs := [], ar := none, sp := none }).sig[63]? =
      some false :=
  ⟨⟨by decide, by decide⟩,
    (gal_new_defaults Chip.GAL16V8).2.2.2.2.2.2.2
      { chip := Chip.GAL16V8, sig := [65], olmcs := [], ar := none, sp := none } 63
      (by decide) (by decide)⟩

end Galette
